import Mathlib

/-!
Verification of the Toing-AI core pipeline (Excel engine, AI provider gateway,
JSON response extractor) against its natural-language specification.

The Python sources are shallowly embedded: pure functions become Lean
functions, the mutable worksheet/workbook state of `openpyxl` becomes explicit
grids of cells passed and returned, the file system touched by
`ExcelEngine.fix_excel_errors` becomes an explicit association list from paths
to workbooks, and the external AI backends become oracles mapping an attempt
index to that attempt's outcome.  Machine details that the claims do not
mention (fonts, fills, real timestamps, byte-level xlsx serialisation) are not
modelled; everything the claims do mention is translated from the source.
-/

namespace ToingAI

/-! ### Cell and worksheet model (src/core/excel_engine.py)

A cell value is `none` (Python `None` / empty cell), a string, or an integer.
`dataType` mirrors `openpyxl`'s `cell.data_type` tag: `f` for formula cells,
`s` for string cells, `n` for numeric/empty cells, `e` for error cells.  For
cells loaded from an existing file the tag is free-standing data (it comes
from the file); for cells written by the engine it is derived from the value
(a string beginning with `=` becomes a formula).  `numberFormat` models
`cell.number_format`, `none` standing for the untouched default. -/

inductive XVal where
  | s (v : String)
  | i (v : Int)
deriving DecidableEq, Repr

inductive DType where
  | f
  | s
  | n
  | e
deriving DecidableEq, Repr

structure Cell where
  value : Option XVal
  dataType : DType
  numberFormat : Option String
deriving DecidableEq, Repr

/-- The empty cell: what `openpyxl` reports for any never-written coordinate. -/
def blankCell : Cell := ⟨none, DType.n, none⟩

/-- The `data_type` `openpyxl` derives when a value is assigned to a cell:
a string beginning with `=` becomes a formula (`f`), any other string `s`,
numbers and `None` are `n`. -/
def valDType : Option XVal → DType
  | none => DType.n
  | some (XVal.s v) => if v.startsWith "=" then DType.f else DType.s
  | some (XVal.i _) => DType.n

/-- Python `str(value)` on a cell value, as used by the engine's f-strings
(`str(None)` is `"None"`). -/
def pyStr : Option XVal → String
  | none => "None"
  | some (XVal.s v) => v
  | some (XVal.i v) => toString v

/-- A worksheet: a grid of cells (row-major, row `r` is entry `r-1`) plus the
per-column widths set through `column_dimensions`. -/
structure Worksheet where
  grid : List (List Cell)
  widths : List (Nat × Nat)
deriving DecidableEq, Repr

/-- A workbook: its worksheets in order; `wb.active` is the first. -/
structure Workbook where
  sheets : List Worksheet
deriving DecidableEq, Repr

def Workbook.active (wb : Workbook) : Worksheet := wb.sheets.headD ⟨[], []⟩

/-- Read a cell at 1-based coordinate `(r, c)`; absent cells are blank,
matching `openpyxl` materialising empty cells on access. -/
def getCell (g : List (List Cell)) (r c : Nat) : Cell :=
  (g.getD (r - 1) []).getD (c - 1) blankCell

/-- Pad a row with blank cells up to length `n`. -/
def padRow (row : List Cell) (n : Nat) : List Cell :=
  row ++ List.replicate (n - row.length) blankCell

/-- Write a value into the cell at 1-based `(r, c)`, growing the grid as
`openpyxl` grows a sheet's dimensions; the assignment re-derives `data_type`
from the new value and keeps the existing `number_format`. -/
def setCellVal (g : List (List Cell)) (r c : Nat) (v : Option XVal) : List (List Cell) :=
  let g' := g ++ List.replicate (r - g.length) []
  let row := padRow (g'.getD (r - 1) []) c
  let cell := row.getD (c - 1) blankCell
  g'.set (r - 1) (row.set (c - 1) { cell with value := v, dataType := valDType v })

/-! ### Error detection (`ExcelEngine._detect_errors`, `_get_error_message`) -/

/-- `self.error_types` from `ExcelEngine.__init__`. -/
def error_types : List String :=
  ["#DIV/0!", "#N/A", "#NAME?", "#NULL!", "#NUM!", "#REF!", "#VALUE!", "#GETTING_DATA"]

/-- `ExcelEngine._get_error_message`: the static cause table, with the
dictionary's `.get` default. -/
def get_error_message (t : String) : String :=
  if t = "#DIV/0!" then "Pembagian dengan nol"
  else if t = "#N/A" then "Nilai tidak tersedia"
  else if t = "#NAME?" then "Nama fungsi tidak dikenali"
  else if t = "#NULL!" then "Interseksi range tidak valid"
  else if t = "#NUM!" then "Nilai numerik tidak valid"
  else if t = "#REF!" then "Referensi cell tidak valid"
  else if t = "#VALUE!" then "Tipe data tidak sesuai"
  else if t = "#GETTING_DATA" then "Mengambil data..."
  else "Error tidak dikenal"

/-- `ExcelError` dataclass; the `cell` coordinate string (e.g. `"B3"`) is
modelled as the 1-based `(row, column)` pair it denotes. -/
structure ExcelError where
  cell : Nat × Nat
  error_type : String
  formula : String
  message : String
deriving DecidableEq, Repr

/-- Whether a cell's stored value triggers `cell.value in self.error_types`:
only a string equal to one of the eight tokens does. -/
def isErrTokenCell (cl : Cell) : Bool :=
  match cl.value with
  | some (XVal.s v) => v ∈ error_types
  | _ => false

/-- The record `_detect_errors` appends for an offending cell. -/
def mkErrRecord (r c : Nat) (cl : Cell) : ExcelError :=
  { cell := (r, c)
    error_type := pyStr cl.value
    formula := if cl.dataType = DType.f then pyStr cl.value else ""
    message := get_error_message (pyStr cl.value) }

/-- Inner loop of `_detect_errors`: one row, starting at column `c`. -/
def detectRowFrom (r c : Nat) : List Cell → List ExcelError
  | [] => []
  | cl :: rest =>
      (if isErrTokenCell cl then [mkErrRecord r c cl] else []) ++ detectRowFrom r (c + 1) rest

/-- Outer loop of `_detect_errors`: rows starting at row `r`. -/
def detectRowsFrom (r : Nat) : List (List Cell) → List ExcelError
  | [] => []
  | row :: rest => detectRowFrom r 1 row ++ detectRowsFrom (r + 1) rest

/-- `ExcelEngine._detect_errors`: scan every cell of the worksheet in row-major
order and record each whose stored value equals one of the error tokens. -/
def detect_errors (ws : Worksheet) : List ExcelError :=
  detectRowsFrom 1 ws.grid

/-! ### Error repair (`ExcelEngine._try_fix_error`, `fix_excel_errors`) -/

/-- `ExcelEngine._try_fix_error`: the `#DIV/0!` / `#N/A` formula rewrites, all
other cases untouched.  Returns the Python `bool` and the updated worksheet. -/
def try_fix_error (ws : Worksheet) (err : ExcelError) : Bool × Worksheet :=
  let cl := getCell ws.grid err.cell.1 err.cell.2
  if err.error_type = "#DIV/0!" ∧ cl.dataType = DType.f then
    (true, { ws with grid := (setCellVal ws.grid err.cell.1 err.cell.2
      (some (XVal.s ("=IFERROR(" ++ pyStr cl.value ++ ", 0)")))) })
  else if err.error_type = "#N/A" ∧ cl.dataType = DType.f then
    (true, { ws with grid := (setCellVal ws.grid err.cell.1 err.cell.2
      (some (XVal.s ("=IFERROR(" ++ pyStr cl.value ++ ", \"-\")")))) })
  else (false, ws)

/-- The fix loop of `fix_excel_errors`: fold `_try_fix_error` over the detected
errors, counting the fixes. -/
def fixErrorsFold (ws : Worksheet) (errs : List ExcelError) : Nat × Worksheet :=
  errs.foldl
    (fun acc e =>
      let r := try_fix_error acc.2 e
      (acc.1 + (if r.1 then 1 else 0), r.2)) (0, ws)

/-- Replace a workbook's active (first) sheet. -/
def Workbook.setActive (wb : Workbook) (ws : Worksheet) : Workbook :=
  match wb.sheets with
  | [] => ⟨[]⟩
  | _ :: rest => ⟨ws :: rest⟩

/-- The file system visible to the engine: a path-to-workbook association. -/
abbrev FileSys := List (String × Workbook)

def fsLookup (fs : FileSys) (p : String) : Option Workbook :=
  (List.find? (fun e => e.1 = p) fs).map (fun e => e.2)

/-- `wb.save(path)`: afterwards `path` resolves to the written workbook and
every other path is untouched; the newest write shadows older entries. -/
def fsWrite (fs : FileSys) (p : String) (wb : Workbook) : FileSys :=
  (p, wb) :: fs

/-- `ExcelEngine.fix_excel_errors`: read the file, detect errors on the active
sheet; with no errors (or `auto_fix` off) return the input path untouched;
otherwise reload the file, apply the fixes and save to a fresh
`fixed_<timestamp>.xlsx` artifact.  `none` models the raised exception when
the file is missing. -/
def fix_excel_errors (fs : FileSys) (path : String) (auto_fix : Bool)
    (timestamp : String) : Option (FileSys × String × List ExcelError) :=
  match fsLookup fs path with
  | none => none
  | some wb =>
      let errors := detect_errors wb.active
      if errors = [] then some (fs, path, [])
      else if auto_fix = false then some (fs, path, errors)
      else
        let out := "fixed_" ++ timestamp ++ ".xlsx"
        let ws' := (fixErrorsFold wb.active errors).2
        some (fsWrite fs out (wb.setActive ws'), out, errors)

/-! ### Workbook statistics (`ExcelEngine._get_workbook_stats`) -/

/-- `sheet.max_row`: the grid extent in rows. -/
def Worksheet.maxRow (ws : Worksheet) : Nat := ws.grid.length

/-- `sheet.max_column`: the widest row of the grid. -/
def Worksheet.maxCol (ws : Worksheet) : Nat :=
  ws.grid.foldr (fun row acc => max row.length acc) 0

/-- Inner cell loop of the formula scan (`for cell in row: ... break`). -/
def rowHasFormula (row : List Cell) : Bool :=
  row.any (fun cl => cl.dataType = DType.f)

/-- Row loop of the formula scan with its early `break` once a formula is
seen; `hf` is the `has_formulas` flag the loop entered the sheet with. -/
def scanFormulas : List (List Cell) → Bool → Bool
  | [], hf => hf
  | row :: rest, hf =>
      let hf' := hf || rowHasFormula row
      if hf' then hf' else scanFormulas rest hf'

/-- `ExcelStats` dataclass (the `errors`/`has_errors`/`file_size` fields are
filled in by the caller and left at their construction defaults here). -/
structure ExcelStats where
  total_sheets : Nat
  total_rows : Nat
  total_columns : Nat
  has_formulas : Bool
  has_errors : Bool
  errors : List ExcelError
  file_size : Nat
deriving DecidableEq, Repr

/-- `ExcelEngine._get_workbook_stats`: one pass over the sheets accumulating
row sum, column maximum and the short-circuit formula flag. -/
def get_workbook_stats (wb : Workbook) : ExcelStats :=
  let acc := wb.sheets.foldl
    (fun (acc : Nat × Nat × Bool) sheet =>
      (acc.1 + sheet.maxRow, max acc.2.1 sheet.maxCol, scanFormulas sheet.grid acc.2.2))
    (0, 0, false)
  { total_sheets := wb.sheets.length
    total_rows := acc.1
    total_columns := acc.2.1
    has_formulas := acc.2.2
    has_errors := false
    errors := []
    file_size := 0 }

/-! ### Sheet building (`ExcelEngine._create_sheet`, `_apply_formatting`)

Column letters (`"A"`, `"B"`, …) are modelled by their 1-based column
indices.  Header styling (font, fill, alignment) touches no field the claims
mention and is not modelled; `number_format` is. -/

/-- `config` dictionary of `_create_sheet` (with the `.get` defaults). -/
structure Formatting where
  currency_columns : List Nat
  percentage_columns : List Nat
  date_columns : List Nat
  auto_fit : Bool
deriving DecidableEq, Repr

structure SheetConfig where
  name : String
  headers : List String
  data : List (List (Option XVal))
  formulas : List ((Nat × Nat) × String)
  column_widths : List (Nat × Nat)
  formatting : Formatting
deriving DecidableEq, Repr

/-- `CURRENCY_SYMBOL` from config.py. -/
def CURRENCY_SYMBOL : String := "Rp"

/-- One pass of a `for cell in ws[col]` formatting loop: stamp `fmt` on every
cell of column `col` whose row is `> 1` and whose value is not `None`. -/
def setColFormat (g : List (List Cell)) (col : Nat) (fmt : String) : List (List Cell) :=
  (g.enum).map (fun p =>
    if p.1 + 1 > 1 then
      (p.2.enum).map (fun q =>
        if q.1 + 1 = col ∧ q.2.value ≠ none then
          { q.2 with numberFormat := some fmt }
        else q.2)
    else p.2)

/-- Longest `str(cell.value)` in a column (the `auto_fit` measurement; absent
cells read as blank, so `str(None)` as in the source). -/
def colMaxLen (g : List (List Cell)) (col : Nat) : Nat :=
  g.foldl (fun acc row => max acc (pyStr (row.getD (col - 1) blankCell).value).length) 0

/-- Set one column width (`ws.column_dimensions[col].width = w`). -/
def setWidth (ws : List (Nat × Nat)) (col w : Nat) : List (Nat × Nat) :=
  if (List.find? (fun e => e.1 = col) ws).isSome then
    List.map (fun e => if e.1 = col then (col, w) else e) ws
  else ws ++ [(col, w)]

/-- `ExcelEngine._apply_formatting`: currency, percentage and date columns in
that order, then `auto_fit` widths. -/
def apply_formatting (ws : Worksheet) (fmt : Formatting) : Worksheet :=
  let g1 := fmt.currency_columns.foldl
    (fun g col => setColFormat g col ("\"" ++ CURRENCY_SYMBOL ++ "\" #,##0")) ws.grid
  let g2 := fmt.percentage_columns.foldl (fun g col => setColFormat g col "0.00%") g1
  let g3 := fmt.date_columns.foldl (fun g col => setColFormat g col "DD/MM/YYYY") g2
  let widths :=
    if fmt.auto_fit then
      (List.range (Worksheet.maxCol ⟨g3, ws.widths⟩)).foldl
        (fun w i => setWidth w (i + 1) (min (colMaxLen g3 (i + 1) + 2) 50)) ws.widths
    else ws.widths
  ⟨g3, widths⟩

/-- Header row write of `_create_sheet` (`row 1`, columns `1..`). -/
def writeHeaders (g : List (List Cell)) (headers : List String) : List (List Cell) :=
  (headers.enum).foldl (fun g p => setCellVal g 1 (p.1 + 1) (some (XVal.s p.2))) g

/-- Body grid write of `_create_sheet`, starting at `start_row`.  The source's
formula test (`isinstance(value, str) and value.startswith("=")`) selects the
same assignment either way; the embedded write re-derives `data_type` exactly
as the assignment does. -/
def writeData (g : List (List Cell)) (startRow : Nat) (data : List (List (Option XVal))) :
    List (List Cell) :=
  (data.enum).foldl
    (fun g rp =>
      (rp.2.enum).foldl (fun g cp => setCellVal g (rp.1 + startRow) (cp.1 + 1) cp.2) g)
    g

/-- `ExcelEngine._create_sheet`: headers (row 1, when present), body data from
`start_row = 2 if headers else 1`, then the `formulas` map, column widths and
declarative formatting. -/
def create_sheet (cfg : SheetConfig) : Worksheet :=
  let g0 : List (List Cell) := []
  let g1 := writeHeaders g0 cfg.headers
  let startRow := if cfg.headers ≠ [] then 2 else 1
  let g2 := writeData g1 startRow cfg.data
  let g3 := cfg.formulas.foldl
    (fun g p => setCellVal g p.1.1 p.1.2 (some (XVal.s p.2))) g2
  let widths := cfg.column_widths.foldl (fun w p => setWidth w p.1 p.2) []
  apply_formatting ⟨g3, widths⟩ cfg.formatting

/-! ### AI engine model (src/core/ai_engine.py)

The external backends are oracles: a `ProvEnv` maps the attempt number to
that attempt's outcome — an error message, or the returned text together with
the token count the backend reports (Gemini never exposes one; the gateway
stores `0` for it).  The rate-limiter wait that precedes each attempt returns
no value and only delays (it is modelled and verified separately below as
`wait_for_rate_limit`), so the query functions here carry only the usage
counters. -/

inductive AIProvider where
  | gemini
  | groq
deriving DecidableEq, Repr

/-- The `self.stats` counter dictionary. -/
structure Stats where
  gemini_requests : Nat
  groq_requests : Nat
  gemini_errors : Nat
  groq_errors : Nat
  fallbacks : Nat
deriving DecidableEq, Repr

/-- Counters as initialised in `AIEngine.__init__`. -/
def statsInit : Stats := ⟨0, 0, 0, 0, 0⟩

/-- `AIResponse` dataclass. -/
structure AIResponse where
  success : Bool
  content : String
  provider : AIProvider
  tokens_used : Nat
  error : Option String
deriving DecidableEq, Repr

/-- Outcome oracle for one provider: attempt number ↦ error text, or
(content, reported token total). -/
abbrev ProvEnv := Nat → Except String (String × Nat)

/-- Python `f"{x}"` on an `Optional[str]`. -/
def optStr : Option String → String
  | none => "None"
  | some s => s

/-- The configured model names (config.py); each provider's client is built
once with its single model. -/
def GEMINI_MODEL : String := "gemini-1.5-flash"

def GROQ_MODEL : String := "llama-3.1-70b-versatile"

/-- The retry loop of `_query_gemini`: `attempt` is the current index,
`remaining` the iterations `range(max_retries)` still has.  `none` models the
loop finishing without a `return` (only possible when `max_retries = 0`). -/
def queryGeminiGo (env : ProvEnv) : Nat → Nat → Stats → Option (AIResponse × Stats)
  | _, 0, _ => none
  | attempt, remaining + 1, st =>
      match env attempt with
      | Except.ok (content, _) =>
          some ({ success := true, content := content, provider := AIProvider.gemini,
                  tokens_used := 0, error := none },
                { st with gemini_requests := st.gemini_requests + 1 })
      | Except.error e =>
          let st' := { st with gemini_errors := st.gemini_errors + 1 }
          if remaining = 0 then
            some ({ success := false, content := "", provider := AIProvider.gemini,
                    tokens_used := 0, error := some e }, st')
          else queryGeminiGo env (attempt + 1) remaining st'

/-- `AIEngine._query_gemini`. -/
def query_gemini (env : ProvEnv) (available : Bool) (maxRetries : Nat) (st : Stats) :
    Option (AIResponse × Stats) :=
  if available then queryGeminiGo env 0 maxRetries st
  else some ({ success := false, content := "", provider := AIProvider.gemini,
               tokens_used := 0, error := some "Gemini not available" }, st)

/-- The retry loop of `_query_groq`; a success stores the reported token
total. -/
def queryGroqGo (env : ProvEnv) : Nat → Nat → Stats → Option (AIResponse × Stats)
  | _, 0, _ => none
  | attempt, remaining + 1, st =>
      match env attempt with
      | Except.ok (content, tk) =>
          some ({ success := true, content := content, provider := AIProvider.groq,
                  tokens_used := tk, error := none },
                { st with groq_requests := st.groq_requests + 1 })
      | Except.error e =>
          let st' := { st with groq_errors := st.groq_errors + 1 }
          if remaining = 0 then
            some ({ success := false, content := "", provider := AIProvider.groq,
                    tokens_used := 0, error := some e }, st')
          else queryGroqGo env (attempt + 1) remaining st'

/-- `AIEngine._query_groq`. -/
def query_groq (env : ProvEnv) (available : Bool) (maxRetries : Nat) (st : Stats) :
    Option (AIResponse × Stats) :=
  if available then queryGroqGo env 0 maxRetries st
  else some ({ success := false, content := "", provider := AIProvider.groq,
               tokens_used := 0, error := some "Groq not available" }, st)

/-- `AIEngine.query`: choose primary and fallback from `prefer_provider`, try
the primary's full attempt sequence, on failure bump the fallback counter and
try the other provider, and when both fail build the combined failure value
(its `provider` field is the literal `AIProvider.GEMINI` from the source and
its labels are the fixed `Gemini:`/`Groq:` text).  Each provider call uses
the default `max_retries = 3`. -/
def query (gemEnv groqEnv : ProvEnv) (gemAvail groqAvail : Bool)
    (prefer : Option AIProvider) (st : Stats) : Option (AIResponse × Stats) :=
  match (if prefer = some AIProvider.groq then query_groq groqEnv groqAvail 3 st
         else query_gemini gemEnv gemAvail 3 st) with
  | none => none
  | some (resp, st1) =>
      if resp.success then some (resp, st1)
      else
        let st2 := { st1 with fallbacks := st1.fallbacks + 1 }
        match (if prefer = some AIProvider.groq then query_gemini gemEnv gemAvail 3 st2
               else query_groq groqEnv groqAvail 3 st2) with
        | none => none
        | some (fresp, st3) =>
            if fresp.success then some (fresp, st3)
            else
              some ({ success := false, content := "", provider := AIProvider.gemini,
                      tokens_used := 0,
                      error := some ("All providers failed. Gemini: " ++ optStr resp.error
                        ++ ", Groq: " ++ optStr fresp.error) }, st3)

/-- The model name each executed Gemini attempt sends: the trace of the retry
loop (success or budget exhaustion ends it).  Every entry is the one
configured model — there is no model list to advance through. -/
def geminiTraceGo (env : ProvEnv) : Nat → Nat → List String
  | _, 0 => []
  | attempt, remaining + 1 =>
      GEMINI_MODEL ::
        (match env attempt with
         | Except.ok _ => []
         | Except.error _ =>
             if remaining = 0 then [] else geminiTraceGo env (attempt + 1) remaining)

/-- Models used by a `_query_gemini` run with the given retry budget. -/
def gemini_attempt_models (env : ProvEnv) (maxRetries : Nat) : List String :=
  geminiTraceGo env 0 maxRetries

/-- The Groq analogue of `geminiTraceGo`. -/
def groqTraceGo (env : ProvEnv) : Nat → Nat → List String
  | _, 0 => []
  | attempt, remaining + 1 =>
      GROQ_MODEL ::
        (match env attempt with
         | Except.ok _ => []
         | Except.error _ =>
             if remaining = 0 then [] else groqTraceGo env (attempt + 1) remaining)

/-- Models used by a `_query_groq` run with the given retry budget. -/
def groq_attempt_models (env : ProvEnv) (maxRetries : Nat) : List String :=
  groqTraceGo env 0 maxRetries

/-! ### Rate limiter (`AIEngine._check_rate_limit`, `_wait_for_rate_limit`)

Clock times are natural-number seconds.  `now - t` is truncated subtraction,
which agrees with the Python float comparison for every timestamp recorded in
the past. -/

/-- `_check_rate_limit`: prune entries older than 60 seconds, refuse (without
recording) at capacity, otherwise record `now` and admit. -/
def check_rate_limit (now limit : Nat) (ts : List Nat) : Bool × List Nat :=
  let ts' := ts.filter (fun t => now - t < 60)
  if ts'.length ≥ limit then (false, ts')
  else (true, ts' ++ [now])

/-- `_wait_for_rate_limit`: re-check once per one-second sleep until admitted.
The fuel bounds the number of sleeps the model will simulate; `none` means
the loop was still waiting after `fuel` re-checks. -/
def wait_for_rate_limit : Nat → Nat → Nat → List Nat → Option (Nat × List Nat)
  | 0, _, _, _ => none
  | fuel + 1, now, limit, ts =>
      match check_rate_limit now limit ts with
      | (true, ts') => some (now, ts')
      | (false, ts') => wait_for_rate_limit fuel (now + 1) limit ts'

/-! ### JSON values and `json.loads` (library boundary of src/cogs/excel_cog.py)

`json.loads` is the only library call the extractor's control flow depends
on; it is modelled by a total, fuel-based parser of the `json` module's
grammar: objects, arrays, strings (escape sequences validated, content kept
verbatim), numbers (kept as their lexeme), the literals `true`/`false`/`null`
and the module's accepted constants `NaN`/`Infinity`/`-Infinity`, with JSON
whitespace between tokens and no trailing data.  Object members are kept as
the parsed association list. -/

inductive JVal where
  | null
  | bool (b : Bool)
  | num (lex : String)
  | str (s : String)
  | arr (elems : List JVal)
  | obj (members : List (String × JVal))

/-- JSON inter-token whitespace. -/
def skipWsJ : List Char → List Char
  | [] => []
  | c :: rest =>
      if c = ' ' ∨ c = '\t' ∨ c = '\n' ∨ c = '\r' then skipWsJ rest else c :: rest

def isHexDigit (c : Char) : Bool :=
  c.isDigit || ('a' ≤ c && c ≤ 'f') || ('A' ≤ c && c ≤ 'F')

def escSimple (c : Char) : Bool :=
  c = '"' || c = '\\' || c = '/' || c = 'b' || c = 'f' || c = 'n' || c = 'r' || c = 't'

/-- Scan a JSON string body after the opening quote: validate escapes and
reject raw control characters, returning the verbatim content and the rest. -/
def scanString : List Char → Option (List Char × List Char)
  | [] => none
  | '"' :: rest => some ([], rest)
  | '\\' :: 'u' :: a :: b :: c :: d :: rest =>
      if isHexDigit a && isHexDigit b && isHexDigit c && isHexDigit d then
        match scanString rest with
        | some (s, r) => some ('\\' :: 'u' :: a :: b :: c :: d :: s, r)
        | none => none
      else none
  | '\\' :: e :: rest =>
      if escSimple e then
        match scanString rest with
        | some (s, r) => some ('\\' :: e :: s, r)
        | none => none
      else none
  | c :: rest =>
      if c.toNat < 32 then none
      else
        match scanString rest with
        | some (s, r) => some (c :: s, r)
        | none => none

def takeDigits : List Char → List Char × List Char
  | [] => ([], [])
  | c :: rest =>
      if c.isDigit then
        let p := takeDigits rest
        (c :: p.1, p.2)
      else ([], c :: rest)

/-- Scan a number lexeme per the `json` module's number pattern
(`-?(0|[1-9][0-9]*)(.[0-9]+)?([eE][+-]?[0-9]+)?`); an unmatched optional part
ends the lexeme rather than failing. -/
def scanNumber (cs : List Char) : Option (List Char × List Char) :=
  let p1 : List Char × List Char :=
    match cs with
    | '-' :: r => (['-'], r)
    | _ => ([], cs)
  let intOpt : Option (List Char × List Char) :=
    match p1.2 with
    | '0' :: r => some (['0'], r)
    | c :: r => if c.isDigit then
        let p := takeDigits r
        some (c :: p.1, p.2)
      else none
    | [] => none
  match intOpt with
  | none => none
  | some (ip, r1) =>
      let pf : List Char × List Char :=
        match r1 with
        | '.' :: r =>
            (match takeDigits r with
             | ([], _) => ([], r1)
             | (ds, r') => ('.' :: ds, r'))
        | _ => ([], r1)
      let pe : List Char × List Char :=
        match pf.2 with
        | e :: r =>
            if e = 'e' ∨ e = 'E' then
              let psgn : List Char × List Char :=
                match r with
                | '+' :: r' => (['+'], r')
                | '-' :: r' => (['-'], r')
                | _ => ([], r)
              match takeDigits psgn.2 with
              | ([], _) => ([], pf.2)
              | (ds, r') => (e :: (psgn.1 ++ ds), r')
            else ([], pf.2)
        | [] => ([], pf.2)
      some (p1.1 ++ ip ++ pf.1 ++ pe.1, pe.2)

mutual

/-- Parse one JSON value at the given position (whitespace already skipped). -/
def parseVal : Nat → List Char → Option (JVal × List Char)
  | 0, _ => none
  | fuel + 1, cs =>
      match cs with
      | '\x7b' :: r =>
          (match skipWsJ r with
           | '\x7d' :: r2 => some (JVal.obj [], r2)
           | cs2 =>
               match parseMembers fuel cs2 with
               | some (ms, rest) => some (JVal.obj ms, rest)
               | none => none)
      | '[' :: r =>
          (match skipWsJ r with
           | ']' :: r2 => some (JVal.arr [], r2)
           | cs2 =>
               match parseElems fuel cs2 with
               | some (es, rest) => some (JVal.arr es, rest)
               | none => none)
      | '"' :: r =>
          (match scanString r with
           | some (s, rest) => some (JVal.str (String.mk s), rest)
           | none => none)
      | 't' :: 'r' :: 'u' :: 'e' :: r => some (JVal.bool true, r)
      | 'f' :: 'a' :: 'l' :: 's' :: 'e' :: r => some (JVal.bool false, r)
      | 'n' :: 'u' :: 'l' :: 'l' :: r => some (JVal.null, r)
      | 'N' :: 'a' :: 'N' :: r => some (JVal.num "NaN", r)
      | 'I' :: 'n' :: 'f' :: 'i' :: 'n' :: 'i' :: 't' :: 'y' :: r =>
          some (JVal.num "Infinity", r)
      | '-' :: 'I' :: 'n' :: 'f' :: 'i' :: 'n' :: 'i' :: 't' :: 'y' :: r =>
          some (JVal.num "-Infinity", r)
      | _ =>
          match scanNumber cs with
          | some (lex, rest) => some (JVal.num (String.mk lex), rest)
          | none => none

/-- Parse the members of a non-empty object, positioned at the first key. -/
def parseMembers : Nat → List Char → Option (List (String × JVal) × List Char)
  | 0, _ => none
  | fuel + 1, cs =>
      match cs with
      | '"' :: r =>
          (match scanString r with
           | none => none
           | some (k, r1) =>
               match skipWsJ r1 with
               | ':' :: r2 =>
                   (match parseVal fuel (skipWsJ r2) with
                    | none => none
                    | some (v, r3) =>
                        match skipWsJ r3 with
                        | ',' :: r4 =>
                            (match parseMembers fuel (skipWsJ r4) with
                             | some (ms, r5) => some ((String.mk k, v) :: ms, r5)
                             | none => none)
                        | '\x7d' :: r4 => some ([(String.mk k, v)], r4)
                        | _ => none)
               | _ => none)
      | _ => none

/-- Parse the elements of a non-empty array, positioned at the first value. -/
def parseElems : Nat → List Char → Option (List JVal × List Char)
  | 0, _ => none
  | fuel + 1, cs =>
      match parseVal fuel cs with
      | none => none
      | some (v, r) =>
          match skipWsJ r with
          | ',' :: r2 =>
              (match parseElems fuel (skipWsJ r2) with
               | some (es, r3) => some (v :: es, r3)
               | none => none)
          | ']' :: r2 => some ([v], r2)
          | _ => none

end

/-- `json.loads`: a complete document with no trailing data; `none` models
the raised `JSONDecodeError`. -/
def json_loads (s : String) : Option JVal :=
  match parseVal (s.length + 1) (skipWsJ s.toList) with
  | some (v, rest) => if skipWsJ rest = [] then some v else none
  | none => none

/-! ### The extraction waterfall (`extract_json_from_response`) -/

/-- Python `str.strip()` whitespace. -/
def pyWsChar (c : Char) : Bool :=
  c = ' ' || c = '\t' || c = '\n' || c = '\r' || c = '\x0b' || c = '\x0c'

/-- Python `str.strip()`. -/
def pyStrip (s : String) : String :=
  String.mk (((s.toList.dropWhile pyWsChar).reverse.dropWhile pyWsChar).reverse)

/-- All indices at which `pat` occurs in `cs`, ascending. -/
def subIdxs (cs pat : List Char) : List Nat :=
  (List.range (cs.length + 1)).filter (fun i => pat.isPrefixOf (cs.drop i))

/-- Contents of the first fenced block: the leftmost occurrence of `opener`
followed by a closing triple backtick, exactly the span the lazy regex
matches; the caller strips the group, so the pattern's boundary whitespace
does not need separate treatment. -/
def fencedContent (opener cs : List Char) : Option (List Char) :=
  match (subIdxs cs opener).find?
      (fun i => ((subIdxs (cs.drop (i + opener.length)) ("```".toList)).head?).isSome) with
  | none => none
  | some i =>
      let rest := cs.drop (i + opener.length)
      match (subIdxs rest ("```".toList)).head? with
      | some j => some (rest.take j)
      | none => none

/-- All indices of character `c`, ascending. -/
def charIdxs (cs : List Char) (c : Char) : List Nat :=
  (List.range cs.length).filter (fun i => cs.getD i ' ' = c)

/-- The span the greedy pattern (open, any run, close) matches: from the
first opener that has some closer after it, through the last closer. -/
def greedySpan (cs : List Char) (openC closeC : Char) : Option (List Char) :=
  match (charIdxs cs openC).find? (fun i => (charIdxs cs closeC).any (fun j => i < j)) with
  | none => none
  | some i =>
      match ((charIdxs cs closeC).filter (fun j => i < j)).getLast? with
      | some j => some ((cs.take (j + 1)).drop i)
      | none => none

/-- `extract_json_from_response` (src/cogs/excel_cog.py): empty input is
rejected outright, then the five parse attempts run in order on the stripped
text, the first success returning; when all fail a `ValueError` carrying the
first 200 characters of the stripped text is raised (modelled as
`Except.error`). -/
def extract_json_from_response (s : String) : Except String JVal :=
  if s = "" then Except.error "Empty response from AI"
  else
    let text := pyStrip s
    match json_loads text with
    | some v => Except.ok v
    | none =>
        match (fencedContent ("```json".toList) text.toList).bind
            (fun c => json_loads (pyStrip (String.mk c))) with
        | some v => Except.ok v
        | none =>
            match (fencedContent ("```".toList) text.toList).bind
                (fun c => json_loads (pyStrip (String.mk c))) with
            | some v => Except.ok v
            | none =>
                match (greedySpan text.toList '\x7b' '\x7d').bind
                    (fun c => json_loads (String.mk c)) with
                | some v => Except.ok v
                | none =>
                    match (greedySpan text.toList '[' ']').bind
                        (fun c => json_loads (String.mk c)) with
                    | some v => Except.ok v
                    | none =>
                        Except.error
                          ("Could not extract valid JSON from response. First 200 chars: "
                            ++ text.take 200)

/-- The five waterfall methods as standalone parse attempts on the stripped
text, in the source's order. -/
def method1 (t : String) : Option JVal := json_loads t

def method2 (t : String) : Option JVal :=
  (fencedContent ("```json".toList) t.toList).bind
    (fun c => json_loads (pyStrip (String.mk c)))

def method3 (t : String) : Option JVal :=
  (fencedContent ("```".toList) t.toList).bind
    (fun c => json_loads (pyStrip (String.mk c)))

def method4 (t : String) : Option JVal :=
  (greedySpan t.toList '\x7b' '\x7d').bind (fun c => json_loads (String.mk c))

def method5 (t : String) : Option JVal :=
  (greedySpan t.toList '[' ']').bind (fun c => json_loads (String.mk c))

/-- First success of an ordered list of parse attempts. -/
def firstSome (fs : List (String → Option JVal)) (t : String) : Option JVal :=
  match fs with
  | [] => none
  | f :: rest =>
      match f t with
      | some v => some v
      | none => firstSome rest t

/-- Index of the matching closer for an already-seen opener: scan with a
depth counter. -/
def balancedCloseIdx (openC closeC : Char) : List Char → Nat → Nat → Option Nat
  | [], _, _ => none
  | c :: rest, depth, pos =>
      if c = openC then balancedCloseIdx openC closeC rest (depth + 1) (pos + 1)
      else if c = closeC then
        (if depth = 0 then some pos else balancedCloseIdx openC closeC rest (depth - 1) (pos + 1))
      else balancedCloseIdx openC closeC rest depth (pos + 1)

/-- Modelled from the claim's words, for comparison with the source: "the
first balanced span found anywhere in the text" — the span from the first
opener through its matching closer. -/
def specFirstBalancedSpan (cs : List Char) (openC closeC : Char) : Option (List Char) :=
  match (charIdxs cs openC).head? with
  | none => none
  | some i =>
      match balancedCloseIdx openC closeC (cs.drop (i + 1)) 0 0 with
      | some k => some ((cs.take (i + 1 + k + 1)).drop i)
      | none => none

/-- The claim's version of method 4: parse the first balanced brace span. -/
def specBalancedBraceMethod (t : String) : Option JVal :=
  (specFirstBalancedSpan (pyStrip t).toList '\x7b' '\x7d').bind
    (fun c => json_loads (String.mk c))

/-! ### Spec-side formulations used to state the claims -/

/-- The repair policy in the spec's words: a closed lookup keyed by error
kind, defined for exactly the division-by-zero and not-available kinds. -/
def specFixPolicy (kind : String) : Option (String → String) :=
  if kind = "#DIV/0!" then some (fun f => "=IFERROR(" ++ f ++ ", 0)")
  else if kind = "#N/A" then some (fun f => "=IFERROR(" ++ f ++ ", \"-\")")
  else none

/-- The spec's detection criterion: the stored value equals, case-sensitively
and verbatim, one of the eight canonical tokens. -/
def specIsCanonicalError (cl : Cell) : Bool :=
  match cl.value with
  | some (XVal.s v) =>
      v = "#DIV/0!" ∨ v = "#N/A" ∨ v = "#NAME?" ∨ v = "#NULL!" ∨
      v = "#NUM!" ∨ v = "#REF!" ∨ v = "#VALUE!" ∨ v = "#GETTING_DATA"
  | _ => false

/-- A diagnostic actually originating from a provider's failed attempt
sequence: the fixed not-available text when the client never initialised, or
the error text of one of the (at most three) attempts. -/
def attemptDiagnostic (env : ProvEnv) (avail : Bool) (unavailMsg : String) (d : String) : Prop :=
  (avail = false ∧ d = unavailMsg) ∨ (∃ i, i ≤ 2 ∧ env i = Except.error d)

/-- Cells of a grid all still carry the default (untouched) number format. -/
def fmtNone (g : List (List Cell)) : Prop :=
  ∀ row ∈ g, ∀ cl ∈ row, cl.numberFormat = none

/-! ## Theorems -/

/-- C3.  For every detected error, repair applies a closed lookup keyed by
error kind: a formula cell flagged `#DIV/0!` is rewritten to
`=IFERROR(original, 0)`, a formula cell flagged `#N/A` is rewritten to
`=IFERROR(original, "-")`, a literal (non-formula) cell holding an error
token is left byte-identical (the worksheet is returned unchanged), and every
other error kind is left unmodified and reported as still open (the fix flag
is `false`). -/
theorem claim_C3 (ws : Worksheet) (err : ExcelError) :
    try_fix_error ws err =
      match (if (getCell ws.grid err.cell.1 err.cell.2).dataType = DType.f
             then specFixPolicy err.error_type else none) with
      | some rw =>
          (true, { ws with grid := (setCellVal ws.grid err.cell.1 err.cell.2
            (some (XVal.s (rw (pyStr (getCell ws.grid err.cell.1 err.cell.2).value))))) })
      | none => (false, ws) := by
  unfold try_fix_error specFixPolicy
  by_cases h2 : (getCell ws.grid err.cell.1 err.cell.2).dataType = DType.f
  · by_cases h1 : err.error_type = "#DIV/0!"
    · simp [h1, h2]
    · by_cases h3 : err.error_type = "#N/A" <;> simp [h1, h2, h3]
  · simp [h2]

/-- C7 (amended).  The gateway has no model rotation: every attempt a
provider run executes is issued against that provider's single configured
model, whatever the preceding errors said. -/
theorem claim_C7 (env : ProvEnv) (attempt remaining : Nat) :
    (geminiTraceGo env attempt remaining).all (fun m => m = GEMINI_MODEL) = true ∧
    (groqTraceGo env attempt remaining).all (fun m => m = GROQ_MODEL) = true := by
  induction remaining generalizing attempt with
  | zero => simp [geminiTraceGo, groqTraceGo]
  | succ rem ih =>
      constructor
      · simp only [geminiTraceGo, List.all_cons, Bool.and_eq_true, decide_eq_true_eq]
        refine ⟨trivial, ?_⟩
        cases env attempt with
        | ok p => simp
        | error e =>
            by_cases hr : rem = 0
            · simp [hr]
            · simp only [if_neg hr]
              exact (ih (attempt + 1)).1
      · simp only [groqTraceGo, List.all_cons, Bool.and_eq_true, decide_eq_true_eq]
        refine ⟨trivial, ?_⟩
        cases env attempt with
        | ok p => simp
        | error e =>
            by_cases hr : rem = 0
            · simp [hr]
            · simp only [if_neg hr]
              exact (ih (attempt + 1)).2

/-- C7, claim as stated, refuted: an attempt fails with an error text
reporting the model deprecated/not found, yet the following attempts use the
very same configured model (there is no list to advance through) and the run
ends as a provider failure after the budget. -/
theorem claim_C7_counterexample :
    (fun _ => Except.error "models/gemini-1.5-flash is not found or deprecated" : ProvEnv) 0
        = Except.error "models/gemini-1.5-flash is not found or deprecated" ∧
    gemini_attempt_models
        (fun _ => Except.error "models/gemini-1.5-flash is not found or deprecated") 3
      = [GEMINI_MODEL, GEMINI_MODEL, GEMINI_MODEL] ∧
    query_gemini (fun _ => Except.error "models/gemini-1.5-flash is not found or deprecated")
        true 3 statsInit
      = some ({ success := false, content := "", provider := AIProvider.gemini,
                tokens_used := 0,
                error := some "models/gemini-1.5-flash is not found or deprecated" },
              { gemini_requests := 0, groq_requests := 0, gemini_errors := 3,
                groq_errors := 0, fallbacks := 0 }) :=
  ⟨rfl, rfl, rfl⟩

/-- The formula scan with its early exit equals the plain existence check. -/
theorem scanFormulas_eq (g : List (List Cell)) (hf : Bool) :
    scanFormulas g hf = (hf || g.any rowHasFormula) := by
  induction g generalizing hf with
  | nil => simp [scanFormulas]
  | cons row rest ih =>
      simp only [scanFormulas, List.any_cons]
      by_cases h : (hf || rowHasFormula row) = true
      · simp [h]
        rcases Bool.or_eq_true_iff.mp h with h' | h' <;> simp [h']
      · have h1 : hf = false := by
          cases hf <;> simp_all
        have h2 : rowHasFormula row = false := by
          cases hrow : rowHasFormula row <;> simp_all
        simp [h, h1, h2, ih]

/-- The accumulating fold of `_get_workbook_stats`, characterised. -/
theorem stats_fold_eq (l : List Worksheet) (a b : Nat) (h : Bool) :
    l.foldl (fun (acc : Nat × Nat × Bool) sheet =>
        (acc.1 + sheet.maxRow, max acc.2.1 sheet.maxCol, scanFormulas sheet.grid acc.2.2))
        (a, b, h) =
      (a + (l.map Worksheet.maxRow).sum,
       max b ((l.map Worksheet.maxCol).foldr max 0),
       h || l.any (fun s => s.grid.any rowHasFormula)) := by
  induction l generalizing a b h with
  | nil => simp
  | cons ws rest ih =>
      simp only [List.foldl_cons, List.map_cons, List.sum_cons, List.foldr_cons, List.any_cons]
      rw [ih, scanFormulas_eq]
      refine congrArg₂ _ (by omega) (congrArg₂ _ ?_ ?_)
      · rw [Nat.max_assoc]
      · rw [Bool.or_assoc]

/-- C9.  For every inspected workbook: `sheet_count` is the number of sheets,
`total_rows` the sum of the per-sheet row counts, `total_columns` the maximum
of the per-sheet column counts, and `has_formulas` holds exactly when some
cell somewhere in the workbook is a formula cell. -/
theorem claim_C9 (wb : Workbook) :
    (get_workbook_stats wb).total_sheets = wb.sheets.length ∧
    (get_workbook_stats wb).total_rows = (wb.sheets.map Worksheet.maxRow).sum ∧
    (get_workbook_stats wb).total_columns = (wb.sheets.map Worksheet.maxCol).foldr max 0 ∧
    ((get_workbook_stats wb).has_formulas = true ↔
      ∃ ws ∈ wb.sheets, ∃ row ∈ ws.grid, ∃ cl ∈ row, cl.dataType = DType.f) := by
  unfold get_workbook_stats
  rw [stats_fold_eq]
  refine ⟨rfl, by simp, by simp, ?_⟩
  simp [rowHasFormula, List.any_eq_true]

/-- Waiting always terminates in an admission: once every recorded timestamp
is old enough to be pruned within `fuel` one-second sleeps, the loop admits
the request, records it, and the window stays within the limit. -/
theorem wait_admits (fuel : Nat) (limit : Nat) : ∀ (now : Nat) (ts : List Nat),
    1 ≤ limit → (∀ t ∈ ts, t + 60 ≤ now + fuel) →
    ∃ now' ts', wait_for_rate_limit (fuel + 1) now limit ts = some (now', ts') ∧
      now ≤ now' ∧ now' ≤ now + fuel ∧ ts'.length ≤ limit := by
  induction fuel with
  | zero =>
      intro now ts hlim hold
      have hfil : ts.filter (fun t => now - t < 60) = [] := by
        rw [List.filter_eq_nil_iff]
        intro t ht
        have := hold t ht
        simp only [decide_eq_true_eq, not_lt]
        omega
      refine ⟨now, [now], ?_, le_refl _, by omega, by simpa using hlim⟩
      simp [wait_for_rate_limit, check_rate_limit, hfil, Nat.not_le.mpr hlim]
  | succ fuel ih =>
      intro now ts hlim hold
      have hunf : wait_for_rate_limit (fuel + 1 + 1) now limit ts =
          match check_rate_limit now limit ts with
          | (true, ts') => some (now, ts')
          | (false, ts') => wait_for_rate_limit (fuel + 1) (now + 1) limit ts' := rfl
      by_cases hcap : (ts.filter (fun t => now - t < 60)).length ≥ limit
      · have hc : check_rate_limit now limit ts =
            (false, ts.filter (fun t => now - t < 60)) := by
          simp [check_rate_limit, hcap]
        obtain ⟨now', ts', heq, h1, h2, h3⟩ :=
          ih (now + 1) (ts.filter (fun t => now - t < 60)) hlim (by
            intro t ht
            have := hold t (List.mem_of_mem_filter ht)
            omega)
        exact ⟨now', ts', by rw [hunf, hc]; exact heq, by omega, by omega, h3⟩
      · have hc : check_rate_limit now limit ts =
            (true, ts.filter (fun t => now - t < 60) ++ [now]) := by
          simp [check_rate_limit, hcap]
        refine ⟨now, _, by rw [hunf, hc], le_refl _, by omega, ?_⟩
        simp only [List.length_append, List.length_cons, List.length_nil]
        omega

/-- C6.  The rate limiter never rejects: a call first prunes timestamps older
than 60 seconds before deciding; at capacity the request is not recorded but
merely re-checked after a sleep, and within at most 60 sleeps it is admitted
and recorded, with the surviving window never over the limit. -/
theorem claim_C6 (now limit : Nat) (ts : List Nat) (hlim : 1 ≤ limit)
    (hpast : ∀ t ∈ ts, t ≤ now) :
    (∃ now' ts', wait_for_rate_limit 61 now limit ts = some (now', ts') ∧
       now ≤ now' ∧ now' ≤ now + 60 ∧ ts'.length ≤ limit) ∧
    ((check_rate_limit now limit ts).1 = true →
       (check_rate_limit now limit ts).2 = ts.filter (fun t => now - t < 60) ++ [now]) ∧
    ((check_rate_limit now limit ts).1 = false →
       (check_rate_limit now limit ts).2 = ts.filter (fun t => now - t < 60)) := by
  refine ⟨?_, ?_, ?_⟩
  · exact wait_admits 60 limit now ts hlim (by
      intro t ht
      have := hpast t ht
      omega)
  · unfold check_rate_limit
    by_cases hcap : (ts.filter (fun t => now - t < 60)).length ≥ limit <;> simp [hcap]
  · unfold check_rate_limit
    by_cases hcap : (ts.filter (fun t => now - t < 60)).length ≥ limit <;> simp [hcap]

/-- C6 at a concrete state: limit 1, one fresh and one stale timestamp. -/
theorem claim_C6_witness :
    (1 ≤ 1 ∧ ∀ t ∈ [100, 41], t ≤ 100) ∧
    ((∃ now' ts', wait_for_rate_limit 61 100 1 [100, 41] = some (now', ts') ∧
        100 ≤ now' ∧ now' ≤ 100 + 60 ∧ ts'.length ≤ 1) ∧
     ((check_rate_limit 100 1 [100, 41]).1 = true →
        (check_rate_limit 100 1 [100, 41]).2
          = [100, 41].filter (fun t => 100 - t < 60) ++ [100]) ∧
     ((check_rate_limit 100 1 [100, 41]).1 = false →
        (check_rate_limit 100 1 [100, 41]).2
          = [100, 41].filter (fun t => 100 - t < 60))) :=
  ⟨⟨le_refl 1, by decide⟩, claim_C6 100 1 [100, 41] (by decide) (by decide)⟩

/-- Cells read with a default from an all-default grid's row are
all-default. -/
theorem mem_getD_rows {g : List (List Cell)} (h : fmtNone g) {i : Nat} :
    ∀ x ∈ g.getD i [], x.numberFormat = none := by
  intro x hx
  by_cases hidx : i < g.length
  · rw [List.getD_eq_getElem _ _ hidx] at hx
    exact h _ (List.getElem_mem hidx) x hx
  · rw [List.getD_eq_default _ _ (Nat.le_of_not_lt hidx)] at hx
    exact absurd hx (List.not_mem_nil x)

/-- Writing a cell value never touches any cell's number format. -/
theorem fmtNone_setCellVal (g : List (List Cell)) (r c : Nat) (v : Option XVal)
    (h : fmtNone g) : fmtNone (setCellVal g r c v) := by
  have hg' : fmtNone (g ++ List.replicate (r - g.length) ([] : List Cell)) := by
    intro row hrow x hx
    rcases List.mem_append.mp hrow with hrow | hrow
    · exact h row hrow x hx
    · rw [List.eq_of_mem_replicate hrow] at hx
      exact absurd hx (List.not_mem_nil x)
  set g' := g ++ List.replicate (r - g.length) ([] : List Cell) with hg'def
  have hpad : ∀ x ∈ padRow (g'.getD (r - 1) []) c, x.numberFormat = none := by
    intro x hx
    rcases List.mem_append.mp hx with hx | hx
    · exact mem_getD_rows hg' x hx
    · rw [List.eq_of_mem_replicate hx]
      rfl
  intro row hrow cl hcl
  have hrow2 : row ∈ g'.set (r - 1) ((padRow (g'.getD (r - 1) []) c).set (c - 1)
      { (padRow (g'.getD (r - 1) []) c).getD (c - 1) blankCell with
        value := v, dataType := valDType v }) := hrow
  rcases List.mem_or_eq_of_mem_set hrow2 with hmem | rfl
  · exact hg' row hmem cl hcl
  · rcases List.mem_or_eq_of_mem_set hcl with hmem | rfl
    · exact hpad cl hmem
    · show ((padRow (g'.getD (r - 1) []) c).getD (c - 1) blankCell).numberFormat = none
      by_cases hidx : c - 1 < (padRow (g'.getD (r - 1) []) c).length
      · rw [List.getD_eq_getElem _ _ hidx]
        exact hpad _ (List.getElem_mem hidx)
      · rw [List.getD_eq_default _ _ (Nat.le_of_not_lt hidx)]
        rfl

/-- Folding an operation that preserves the all-default-format invariant
preserves it. -/
theorem fmtNone_foldl {α : Type} (f : List (List Cell) → α → List (List Cell))
    (hf : ∀ g a, fmtNone g → fmtNone (f g a)) :
    ∀ (l : List α) (g : List (List Cell)), fmtNone g → fmtNone (l.foldl f g)
  | [], g, h => h
  | a :: rest, g, h => fmtNone_foldl f hf rest (f g a) (hf g a h)

/-- The body write leaves every number format at its default. -/
theorem fmtNone_writeData (g : List (List Cell)) (startRow : Nat)
    (data : List (List (Option XVal))) (h : fmtNone g) :
    fmtNone (writeData g startRow data) := by
  unfold writeData
  refine fmtNone_foldl _ ?_ data.enum g h
  intro g rp hg
  refine fmtNone_foldl _ ?_ rp.2.enum g hg
  intro g cp hg
  exact fmtNone_setCellVal _ _ _ _ hg

/-- The header write leaves every number format at its default. -/
theorem fmtNone_writeHeaders (g : List (List Cell)) (headers : List String)
    (h : fmtNone g) : fmtNone (writeHeaders g headers) := by
  unfold writeHeaders
  refine fmtNone_foldl _ ?_ headers.enum g h
  intro g p hg
  exact fmtNone_setCellVal _ _ _ _ hg

/-- A formatting pass never rewrites row 1 (the `cell.row > 1` guard). -/
theorem setColFormat_head (g : List (List Cell)) (col : Nat) (fmt : String) :
    (setColFormat g col fmt).headD [] = g.headD [] := by
  cases g with
  | nil => rfl
  | cons row rest => simp [setColFormat]

/-- Iterated formatting passes never rewrite row 1. -/
theorem foldl_setColFormat_head (cols : List Nat) (fmt : String) :
    ∀ g : List (List Cell),
      ((cols.foldl (fun g col => setColFormat g col fmt) g).headD []) = g.headD [] := by
  induction cols with
  | nil => intro g; rfl
  | cons c rest ih =>
      intro g
      simp only [List.foldl_cons]
      rw [ih, setColFormat_head]

/-- `_apply_formatting` leaves row 1 exactly as it was. -/
theorem apply_formatting_head (ws : Worksheet) (fmt : Formatting) :
    (apply_formatting ws fmt).grid.headD [] = ws.grid.headD [] := by
  show ((fmt.date_columns.foldl (fun g col => setColFormat g col "DD/MM/YYYY")
      (fmt.percentage_columns.foldl (fun g col => setColFormat g col "0.00%")
        (fmt.currency_columns.foldl
          (fun g col => setColFormat g col ("\"" ++ CURRENCY_SYMBOL ++ "\" #,##0"))
          ws.grid))).headD []) = ws.grid.headD []
  rw [foldl_setColFormat_head, foldl_setColFormat_head, foldl_setColFormat_head]

/-- C10.  Declarative column formatting only touches non-empty cells in rows
strictly greater than 1, so when a sheet is built without a headers list the
first data row — written into row 1 — never receives a currency, percentage
or date number format. -/
theorem claim_C10 (cfg : SheetConfig) (h : cfg.headers = []) :
    ∀ cl ∈ (create_sheet cfg).grid.headD [], cl.numberFormat = none := by
  unfold create_sheet
  rw [apply_formatting_head]
  have hfmt : fmtNone (List.foldl
      (fun g p => setCellVal g p.1.1 p.1.2 (some (XVal.s p.2)))
      (writeData (writeHeaders [] cfg.headers) (if cfg.headers ≠ [] then 2 else 1) cfg.data)
      cfg.formulas) := by
    refine fmtNone_foldl _ (fun g a hg => fmtNone_setCellVal _ _ _ _ hg) cfg.formulas _ ?_
    refine fmtNone_writeData _ _ _ ?_
    refine fmtNone_writeHeaders _ _ ?_
    intro row hrow
    exact absurd hrow (List.not_mem_nil row)
  intro cl hcl
  set G := List.foldl (fun g p => setCellVal g p.1.1 p.1.2 (some (XVal.s p.2)))
      (writeData (writeHeaders [] cfg.headers) (if cfg.headers ≠ [] then 2 else 1) cfg.data)
      cfg.formulas with hGdef
  cases hG : G with
  | nil => rw [hG] at hcl; exact absurd hcl (List.not_mem_nil cl)
  | cons row rest =>
      rw [hG] at hcl
      simp only [List.headD_cons] at hcl
      exact hfmt row (by rw [hG]; exact List.mem_cons_self row rest) cl hcl

/-- C10 at a concrete headerless sheet with a currency column. -/
theorem claim_C10_witness :
    (SheetConfig.headers ⟨"S", [], [[some (XVal.i 5)], [some (XVal.i 7)]], [], [],
        ⟨[1], [], [], false⟩⟩) = [] ∧
    ∀ cl ∈ (create_sheet ⟨"S", [], [[some (XVal.i 5)], [some (XVal.i 7)]], [], [],
        ⟨[1], [], [], false⟩⟩).grid.headD [], cl.numberFormat = none :=
  ⟨rfl, claim_C10 ⟨"S", [], [[some (XVal.i 5)], [some (XVal.i 7)]], [], [],
      ⟨[1], [], [], false⟩⟩ rfl⟩

/-- The detection trigger coincides with the spec's verbatim token
criterion. -/
theorem isErr_eq_spec (cl : Cell) : isErrTokenCell cl = specIsCanonicalError cl := by
  unfold isErrTokenCell specIsCanonicalError
  rcases cl.value with _ | v
  · rfl
  · rcases v with v | n
    · show decide (v ∈ error_types) = _
      rw [decide_eq_decide]
      simp [error_types]
    · rfl

/-- Every record the inner detection loop emits comes from a cell of the row,
at the coordinate the loop assigned it. -/
theorem detectRowFrom_fields (r : Nat) :
    ∀ (row : List Cell) (c : Nat) (e : ExcelError), e ∈ detectRowFrom r c row →
      ∃ k, k < row.length ∧ e = mkErrRecord r (c + k) (row.getD k blankCell) ∧
        isErrTokenCell (row.getD k blankCell) = true
  | [], _, _, he => absurd he (List.not_mem_nil _)
  | cl :: rest, c, e, he => by
      rcases List.mem_append.mp he with hfst | hrec
      · by_cases htok : isErrTokenCell cl = true
        · rw [if_pos htok] at hfst
          rcases List.mem_singleton.mp hfst with rfl
          exact ⟨0, Nat.succ_pos _, by simp, by simpa using htok⟩
        · rw [if_neg htok] at hfst
          exact absurd hfst (List.not_mem_nil _)
      · obtain ⟨k, hk, he', htok⟩ := detectRowFrom_fields r rest (c + 1) e hrec
        refine ⟨k + 1, by simp only [List.length_cons]; omega, ?_, by simpa using htok⟩
        rw [he']
        congr 1
        omega

/-- Every record the detection scan emits comes from a cell of the grid, at
the coordinate the scan assigned it. -/
theorem detectRowsFrom_fields :
    ∀ (g : List (List Cell)) (r : Nat) (e : ExcelError), e ∈ detectRowsFrom r g →
      ∃ j k, j < g.length ∧ k < (g.getD j []).length ∧
        e = mkErrRecord (r + j) (1 + k) ((g.getD j []).getD k blankCell) ∧
        isErrTokenCell ((g.getD j []).getD k blankCell) = true
  | [], _, _, he => absurd he (List.not_mem_nil _)
  | row :: rest, r, e, he => by
      rcases List.mem_append.mp he with hrow | hrec
      · obtain ⟨k, hk, he', htok⟩ := detectRowFrom_fields r row 1 e hrow
        exact ⟨0, k, Nat.succ_pos _, by simpa using hk,
          by simpa [Nat.add_comm 1 k] using he', by simpa using htok⟩
      · obtain ⟨j, k, hj, hk, he', htok⟩ := detectRowsFrom_fields rest (r + 1) e hrec
        refine ⟨j + 1, k, by simp only [List.length_cons]; omega, by simpa using hk,
          ?_, by simpa using htok⟩
        rw [he']
        congr 1
        omega

/-- A head record matters only at its own coordinate. -/
theorem countP_headRecord (r c r0 c0 : Nat) (cl : Cell) (hne : ¬(r0 = r ∧ c0 = c)) :
    (if isErrTokenCell cl = true then [mkErrRecord r c cl] else []).countP
      (fun e => e.cell = (r0, c0)) = 0 := by
  rw [List.countP_eq_zero]
  intro e he
  by_cases htok : isErrTokenCell cl = true
  · rw [if_pos htok] at he
    rcases List.mem_singleton.mp he with rfl
    simp only [mkErrRecord, decide_eq_true_eq]
    intro h
    injection h with h1 h2
    exact hne ⟨h1.symm, h2.symm⟩
  · rw [if_neg htok] at he
    exact absurd he (List.not_mem_nil e)

/-- How many records the inner loop emits for one fixed coordinate. -/
theorem countP_detectRowFrom (r : Nat) :
    ∀ (row : List Cell) (c r0 c0 : Nat),
      (detectRowFrom r c row).countP (fun e => e.cell = (r0, c0)) =
        if r0 = r ∧ c ≤ c0 ∧ c0 < c + row.length ∧
            isErrTokenCell (row.getD (c0 - c) blankCell) = true then 1 else 0
  | [], c, r0, c0 => by
      rw [detectRowFrom, List.countP_nil, if_neg]
      rintro ⟨_, h1, h2, _⟩
      simp only [List.length_nil] at h2
      omega
  | cl :: rest, c, r0, c0 => by
      rw [detectRowFrom, List.countP_append, countP_detectRowFrom r rest (c + 1) r0 c0]
      have hhead : (if isErrTokenCell cl = true then [mkErrRecord r c cl] else []).countP
          (fun e => e.cell = (r0, c0)) =
          if r0 = r ∧ c0 = c ∧ isErrTokenCell cl = true then 1 else 0 := by
        by_cases htok : isErrTokenCell cl = true
        · by_cases hrc : r0 = r ∧ c0 = c
          · rw [if_pos htok, if_pos ⟨hrc.1, hrc.2, htok⟩]
            simp [List.countP_cons, mkErrRecord, hrc.1, hrc.2]
          · have h0 := countP_headRecord r c r0 c0 cl hrc
            rw [h0, if_neg (by tauto)]
        · rw [if_neg htok, if_neg (by tauto)]
          rfl
      rw [hhead]
      by_cases hr : r0 = r
      · by_cases heq : c0 = c
        · have hB : ¬(r0 = r ∧ c + 1 ≤ c0 ∧ c0 < c + 1 + rest.length ∧
              isErrTokenCell (rest.getD (c0 - (c + 1)) blankCell) = true) := by
            rintro ⟨_, h, _, _⟩
            omega
          rw [if_neg hB, Nat.add_zero]
          have hgetD0 : (cl :: rest).getD (c0 - c) blankCell = cl := by
            rw [heq]
            simp only [Nat.sub_self, List.getD_cons_zero]
          have hiff : (r0 = r ∧ c0 = c ∧ isErrTokenCell cl = true) ↔
              (r0 = r ∧ c ≤ c0 ∧ c0 < c + (cl :: rest).length ∧
               isErrTokenCell ((cl :: rest).getD (c0 - c) blankCell) = true) := by
            rw [hgetD0]
            simp only [List.length_cons]
            constructor
            · rintro ⟨a, b, d⟩
              exact ⟨a, by omega, by omega, d⟩
            · rintro ⟨a, _, _, d⟩
              exact ⟨a, heq, d⟩
          rw [if_congr hiff rfl rfl]
        · have hA : ¬(r0 = r ∧ c0 = c ∧ isErrTokenCell cl = true) := by tauto
          rw [if_neg hA, Nat.zero_add]
          by_cases hlt : c < c0
          · have hgetD : (cl :: rest).getD (c0 - c) blankCell
                = rest.getD (c0 - (c + 1)) blankCell := by
              have h : c0 - c = (c0 - (c + 1)) + 1 := by omega
              rw [h, List.getD_cons_succ]
            have hiff : (r0 = r ∧ c + 1 ≤ c0 ∧ c0 < c + 1 + rest.length ∧
                isErrTokenCell (rest.getD (c0 - (c + 1)) blankCell) = true) ↔
                (r0 = r ∧ c ≤ c0 ∧ c0 < c + (cl :: rest).length ∧
                 isErrTokenCell ((cl :: rest).getD (c0 - c) blankCell) = true) := by
              rw [hgetD]
              simp only [List.length_cons]
              constructor
              · rintro ⟨a, b, c2, d⟩
                exact ⟨a, by omega, by omega, d⟩
              · rintro ⟨a, b, c2, d⟩
                exact ⟨a, by omega, by omega, d⟩
            rw [if_congr hiff rfl rfl]
          · have hB : ¬(r0 = r ∧ c + 1 ≤ c0 ∧ c0 < c + 1 + rest.length ∧
                isErrTokenCell (rest.getD (c0 - (c + 1)) blankCell) = true) := by
              rintro ⟨_, h, _, _⟩
              omega
            have hC : ¬(r0 = r ∧ c ≤ c0 ∧ c0 < c + (cl :: rest).length ∧
                isErrTokenCell ((cl :: rest).getD (c0 - c) blankCell) = true) := by
              rintro ⟨_, h, _, _⟩
              omega
            rw [if_neg hB, if_neg hC]
      · have hA : ¬(r0 = r ∧ c0 = c ∧ isErrTokenCell cl = true) := by tauto
        have hB : ¬(r0 = r ∧ c + 1 ≤ c0 ∧ c0 < c + 1 + rest.length ∧
            isErrTokenCell (rest.getD (c0 - (c + 1)) blankCell) = true) := by
          rintro ⟨h1, _⟩
          exact hr h1
        have hC : ¬(r0 = r ∧ c ≤ c0 ∧ c0 < c + (cl :: rest).length ∧
            isErrTokenCell ((cl :: rest).getD (c0 - c) blankCell) = true) := by
          rintro ⟨h1, _⟩
          exact hr h1
        rw [if_neg hA, if_neg hB, if_neg hC]

/-- How many records the whole scan emits for one fixed coordinate. -/
theorem countP_detectRowsFrom :
    ∀ (g : List (List Cell)) (r r0 c0 : Nat),
      (detectRowsFrom r g).countP (fun e => e.cell = (r0, c0)) =
        if r ≤ r0 ∧ r0 < r + g.length ∧ 1 ≤ c0 ∧ c0 < 1 + (g.getD (r0 - r) []).length ∧
            isErrTokenCell ((g.getD (r0 - r) []).getD (c0 - 1) blankCell) = true
        then 1 else 0
  | [], r, r0, c0 => by
      rw [detectRowsFrom, List.countP_nil, if_neg]
      rintro ⟨h1, h2, _⟩
      simp only [List.length_nil] at h2
      omega
  | row :: rest, r, r0, c0 => by
      rw [detectRowsFrom, List.countP_append, countP_detectRowFrom r row 1 r0 c0,
        countP_detectRowsFrom rest (r + 1) r0 c0]
      by_cases hr : r0 = r
      · have hgetD0 : (row :: rest).getD (r0 - r) [] = row := by
          rw [hr]
          simp only [Nat.sub_self, List.getD_cons_zero]
        have hB : ¬(r + 1 ≤ r0 ∧ r0 < r + 1 + rest.length ∧ 1 ≤ c0 ∧
            c0 < 1 + (rest.getD (r0 - (r + 1)) []).length ∧
            isErrTokenCell ((rest.getD (r0 - (r + 1)) []).getD (c0 - 1) blankCell) = true) := by
          rintro ⟨h, _⟩
          omega
        rw [if_neg hB, Nat.add_zero]
        have hiff : (r0 = r ∧ 1 ≤ c0 ∧ c0 < 1 + row.length ∧
            isErrTokenCell (row.getD (c0 - 1) blankCell) = true) ↔
            (r ≤ r0 ∧ r0 < r + (row :: rest).length ∧ 1 ≤ c0 ∧
             c0 < 1 + ((row :: rest).getD (r0 - r) []).length ∧
             isErrTokenCell (((row :: rest).getD (r0 - r) []).getD (c0 - 1) blankCell) = true) := by
          rw [hgetD0]
          simp only [List.length_cons]
          constructor
          · rintro ⟨a, b, c2, d⟩
            exact ⟨by omega, by omega, b, c2, d⟩
          · rintro ⟨a, b, c2, d, f⟩
            exact ⟨hr, c2, d, f⟩
        rw [if_congr hiff rfl rfl]
      · have hA : ¬(r0 = r ∧ 1 ≤ c0 ∧ c0 < 1 + row.length ∧
            isErrTokenCell (row.getD (c0 - 1) blankCell) = true) := by
          rintro ⟨h1, _⟩
          exact hr h1
        rw [if_neg hA, Nat.zero_add]
        by_cases hlt : r < r0
        · have hgetD : (row :: rest).getD (r0 - r) [] = rest.getD (r0 - (r + 1)) [] := by
            have h : r0 - r = (r0 - (r + 1)) + 1 := by omega
            rw [h, List.getD_cons_succ]
          have hiff : (r + 1 ≤ r0 ∧ r0 < r + 1 + rest.length ∧ 1 ≤ c0 ∧
              c0 < 1 + (rest.getD (r0 - (r + 1)) []).length ∧
              isErrTokenCell ((rest.getD (r0 - (r + 1)) []).getD (c0 - 1) blankCell) = true) ↔
              (r ≤ r0 ∧ r0 < r + (row :: rest).length ∧ 1 ≤ c0 ∧
               c0 < 1 + ((row :: rest).getD (r0 - r) []).length ∧
               isErrTokenCell (((row :: rest).getD (r0 - r) []).getD (c0 - 1) blankCell) = true) := by
            rw [hgetD]
            simp only [List.length_cons]
            constructor
            · rintro ⟨a, b, c2, d, f⟩
              exact ⟨by omega, by omega, c2, d, f⟩
            · rintro ⟨a, b, c2, d, f⟩
              exact ⟨by omega, by omega, c2, d, f⟩
          rw [if_congr hiff rfl rfl]
        · have hB : ¬(r + 1 ≤ r0 ∧ r0 < r + 1 + rest.length ∧ 1 ≤ c0 ∧
              c0 < 1 + (rest.getD (r0 - (r + 1)) []).length ∧
              isErrTokenCell ((rest.getD (r0 - (r + 1)) []).getD (c0 - 1) blankCell) = true) := by
            rintro ⟨h, _⟩
            omega
          have hC : ¬(r ≤ r0 ∧ r0 < r + (row :: rest).length ∧ 1 ≤ c0 ∧
              c0 < 1 + ((row :: rest).getD (r0 - r) []).length ∧
              isErrTokenCell (((row :: rest).getD (r0 - r) []).getD (c0 - 1) blankCell) = true) := by
            rintro ⟨h, _⟩
            omega
          rw [if_neg hB, if_neg hC]

/-- C4.  An ErrorRecord is produced if and only if the cell's stored value
equals, case-sensitively and verbatim, one of the 8 canonical tokens; each
such cell yields exactly one record, at that cell's coordinate, whose message
is the fixed cause looked up from the static table keyed by the token. -/
theorem claim_C4 (ws : Worksheet) :
    (∀ e ∈ detect_errors ws,
       e.message = get_error_message e.error_type ∧
       (getCell ws.grid e.cell.1 e.cell.2).value = some (XVal.s e.error_type) ∧
       specIsCanonicalError (getCell ws.grid e.cell.1 e.cell.2) = true) ∧
    (∀ r c, 1 ≤ r → 1 ≤ c →
       (detect_errors ws).countP (fun e => e.cell = (r, c)) =
         if specIsCanonicalError (getCell ws.grid r c) = true then 1 else 0) := by
  constructor
  · intro e he
    obtain ⟨j, k, hj, hk, he', htok⟩ := detectRowsFrom_fields ws.grid 1 e he
    have hcellget : getCell ws.grid (1 + j) (1 + k) = (ws.grid.getD j []).getD k blankCell := by
      unfold getCell
      have h1 : 1 + j - 1 = j := by omega
      have h2 : 1 + k - 1 = k := by omega
      rw [h1, h2]
    subst he'
    refine ⟨rfl, ?_, ?_⟩
    · show (getCell ws.grid (1 + j) (1 + k)).value = _
      rw [hcellget]
      rcases hv : ((ws.grid.getD j []).getD k blankCell).value with _ | v
      · rw [isErrTokenCell, hv] at htok
        exact absurd htok (by simp)
      · rcases v with v | n
        · show _ = some (XVal.s (pyStr ((ws.grid.getD j []).getD k blankCell).value))
          rw [hv]
          rfl
        · rw [isErrTokenCell, hv] at htok
          exact absurd htok (by simp)
    · show specIsCanonicalError (getCell ws.grid (1 + j) (1 + k)) = true
      rw [hcellget, ← isErr_eq_spec]
      exact htok
  · intro r c hr hc
    rw [detect_errors, countP_detectRowsFrom ws.grid 1 r c]
    by_cases hrow : r < 1 + ws.grid.length
    · by_cases hcol : c < 1 + (ws.grid.getD (r - 1) []).length
      · have hiff : (1 ≤ r ∧ r < 1 + ws.grid.length ∧ 1 ≤ c ∧
            c < 1 + (ws.grid.getD (r - 1) []).length ∧
            isErrTokenCell ((ws.grid.getD (r - 1) []).getD (c - 1) blankCell) = true) ↔
            (specIsCanonicalError (getCell ws.grid r c) = true) := by
          constructor
          · rintro ⟨_, _, _, _, htok⟩
            show specIsCanonicalError ((ws.grid.getD (r - 1) []).getD (c - 1) blankCell) = true
            rw [← isErr_eq_spec]
            exact htok
          · intro hs
            refine ⟨hr, hrow, hc, hcol, ?_⟩
            rw [isErr_eq_spec]
            exact hs
        rw [if_congr hiff rfl rfl]
      · have hblank : (ws.grid.getD (r - 1) []).getD (c - 1) blankCell = blankCell :=
          List.getD_eq_default _ _ (by omega)
        have hcell : getCell ws.grid r c = blankCell := hblank
        rw [hcell, if_neg (by
          rintro ⟨_, _, _, hcl, _⟩
          omega)]
        rw [if_neg (by intro h; exact absurd h (by simp [specIsCanonicalError, blankCell]))]
    · have hrows : ws.grid.getD (r - 1) [] = ([] : List Cell) :=
        List.getD_eq_default _ _ (by omega)
      have hcell : getCell ws.grid r c = blankCell := by
        show (ws.grid.getD (r - 1) []).getD (c - 1) blankCell = blankCell
        rw [hrows]
        rfl
      rw [hcell, if_neg (by
        rintro ⟨_, hrw, _⟩
        omega)]
      rw [if_neg (by intro h; exact absurd h (by simp [specIsCanonicalError, blankCell]))]

/-- C4 at a concrete worksheet holding one literal `#N/A` cell. -/
theorem claim_C4_witness :
    ((1 : Nat) ≤ 1 ∧ (1 : Nat) ≤ 1) ∧
    (detect_errors ⟨[[⟨some (XVal.s "#N/A"), DType.s, none⟩]], []⟩).countP
        (fun e => e.cell = (1, 1)) =
      (if specIsCanonicalError
          (getCell (Worksheet.grid ⟨[[⟨some (XVal.s "#N/A"), DType.s, none⟩]], []⟩) 1 1) = true
       then 1 else 0) :=
  ⟨⟨le_refl 1, le_refl 1⟩,
    (claim_C4 ⟨[[⟨some (XVal.s "#N/A"), DType.s, none⟩]], []⟩).2 1 1 (le_refl 1) (le_refl 1)⟩

/-- A saved file shadows exactly its own path. -/
theorem fsLookup_fsWrite (fs : FileSys) (p : String) (wb : Workbook) (q : String) :
    fsLookup (fsWrite fs p wb) q = if q = p then some wb else fsLookup fs q := by
  unfold fsWrite fsLookup
  by_cases hq : q = p
  · rw [if_pos hq, List.find?_cons_of_pos _ (by simp [hq])]
    rfl
  · rw [if_neg hq, List.find?_cons_of_neg _ (by simpa using Ne.symm hq)]

/-- C8 (amended).  `fix_excel_errors` never writes to the source path: the
source entry resolves unchanged afterwards, and the originally detected
errors are returned.  When errors were detected and `auto_fix` is on, the
repaired workbook is saved as a fresh `fixed_<timestamp>.xlsx` artifact and
that distinct path is returned; with no errors, or `auto_fix` off, nothing is
written and the input path itself is returned. -/
theorem claim_C8 (fs : FileSys) (path timestamp : String) (auto_fix : Bool) (wb : Workbook)
    (hwb : fsLookup fs path = some wb)
    (hout : ("fixed_" ++ timestamp ++ ".xlsx") ≠ path) :
    ∃ fs' outPath errs,
      fix_excel_errors fs path auto_fix timestamp = some (fs', outPath, errs) ∧
      errs = detect_errors wb.active ∧
      fsLookup fs' path = some wb ∧
      ((detect_errors wb.active ≠ [] ∧ auto_fix = true) →
        outPath = "fixed_" ++ timestamp ++ ".xlsx" ∧ outPath ≠ path ∧
        (∃ wb', fsLookup fs' outPath = some wb')) ∧
      ((detect_errors wb.active = [] ∨ auto_fix = false) → fs' = fs ∧ outPath = path) := by
  unfold fix_excel_errors
  rw [hwb]
  by_cases he : detect_errors wb.active = []
  · refine ⟨fs, path, [], ?_, he.symm, hwb, ?_, fun _ => ⟨rfl, rfl⟩⟩
    · simp [he]
    · rintro ⟨hne, _⟩
      exact absurd he hne
  · by_cases haf : auto_fix = false
    · refine ⟨fs, path, detect_errors wb.active, ?_, rfl, hwb, ?_, fun _ => ⟨rfl, rfl⟩⟩
      · simp [he, haf]
      · rintro ⟨_, htr⟩
        rw [haf] at htr
        exact absurd htr (by simp)
    · have haf' : auto_fix = true := by
        cases auto_fix
        · exact absurd rfl haf
        · rfl
      refine ⟨fsWrite fs ("fixed_" ++ timestamp ++ ".xlsx")
          ((wb.setActive (fixErrorsFold wb.active (detect_errors wb.active)).2)),
        "fixed_" ++ timestamp ++ ".xlsx", detect_errors wb.active, ?_, rfl, ?_, ?_, ?_⟩
      · simp [he, haf']
      · rw [fsLookup_fsWrite, if_neg (fun h => hout h.symm)]
        exact hwb
      · intro _
        refine ⟨rfl, hout,
          ⟨wb.setActive (fixErrorsFold wb.active (detect_errors wb.active)).2, ?_⟩⟩
        rw [fsLookup_fsWrite, if_pos rfl]
      · rintro (hemp | hfa)
        · exact absurd hemp he
        · exact absurd hfa haf

/-- C8, claim as stated, refuted: repairing an error-free workbook with
`auto_fix` on returns the source path itself and writes no new artifact, so
`fix` does not always return a distinct freshly-written path. -/
theorem claim_C8_counterexample :
    fix_excel_errors [("report.xlsx", ⟨[⟨[[⟨some (XVal.i 1), DType.n, none⟩]], []⟩]⟩)]
        "report.xlsx" true "20250101_000000"
      = some ([("report.xlsx", ⟨[⟨[[⟨some (XVal.i 1), DType.n, none⟩]], []⟩]⟩)],
              "report.xlsx", []) := rfl

/-- C8 at a concrete file whose single cell is a `#DIV/0!` formula. -/
theorem claim_C8_witness :
    (fsLookup [("in.xlsx", ⟨[⟨[[⟨some (XVal.s "#DIV/0!"), DType.f, none⟩]], []⟩]⟩)] "in.xlsx"
        = some ⟨[⟨[[⟨some (XVal.s "#DIV/0!"), DType.f, none⟩]], []⟩]⟩ ∧
     ("fixed_" ++ "20250101_000000" ++ ".xlsx") ≠ "in.xlsx") ∧
    (∃ fs' outPath errs,
      fix_excel_errors [("in.xlsx", ⟨[⟨[[⟨some (XVal.s "#DIV/0!"), DType.f, none⟩]], []⟩]⟩)]
          "in.xlsx" true "20250101_000000" = some (fs', outPath, errs) ∧
      errs = detect_errors
        (Workbook.active ⟨[⟨[[⟨some (XVal.s "#DIV/0!"), DType.f, none⟩]], []⟩]⟩) ∧
      fsLookup fs' "in.xlsx" = some ⟨[⟨[[⟨some (XVal.s "#DIV/0!"), DType.f, none⟩]], []⟩]⟩ ∧
      ((detect_errors (Workbook.active ⟨[⟨[[⟨some (XVal.s "#DIV/0!"), DType.f, none⟩]], []⟩]⟩)
          ≠ [] ∧ true = true) →
        outPath = "fixed_" ++ "20250101_000000" ++ ".xlsx" ∧ outPath ≠ "in.xlsx" ∧
        (∃ wb', fsLookup fs' outPath = some wb')) ∧
      ((detect_errors (Workbook.active ⟨[⟨[[⟨some (XVal.s "#DIV/0!"), DType.f, none⟩]], []⟩]⟩)
          = [] ∨ true = false) → fs' = [("in.xlsx", ⟨[⟨[[⟨some (XVal.s "#DIV/0!"),
            DType.f, none⟩]], []⟩]⟩)] ∧ outPath = "in.xlsx")) :=
  ⟨⟨rfl, by decide⟩,
    claim_C8 [("in.xlsx", ⟨[⟨[[⟨some (XVal.s "#DIV/0!"), DType.f, none⟩]], []⟩]⟩)]
      "in.xlsx" "20250101_000000" true
      ⟨[⟨[[⟨some (XVal.s "#DIV/0!"), DType.f, none⟩]], []⟩]⟩ rfl (by decide)⟩

/-- The Gemini retry loop with a positive budget always returns a value; a
failure value carries the error text of one of the executed attempts, and the
loop never touches the fallback counter. -/
theorem queryGeminiGo_char (env : ProvEnv) :
    ∀ (rem attempt : Nat) (st : Stats), ∃ resp st',
      queryGeminiGo env attempt (rem + 1) st = some (resp, st') ∧
      resp.provider = AIProvider.gemini ∧
      st'.fallbacks = st.fallbacks ∧
      (resp.success = false → ∃ i d, attempt ≤ i ∧ i ≤ attempt + rem ∧
        env i = Except.error d ∧ resp.error = some d) := by
  intro rem
  induction rem with
  | zero =>
      intro attempt st
      cases henv : env attempt with
      | ok p =>
          obtain ⟨content, tk⟩ := p
          exact ⟨{ success := true, content := content, provider := AIProvider.gemini,
                   tokens_used := 0, error := none },
                 { st with gemini_requests := st.gemini_requests + 1 },
                 by rw [queryGeminiGo, henv], rfl, rfl, fun h => absurd h (by simp)⟩
      | error e =>
          exact ⟨{ success := false, content := "", provider := AIProvider.gemini,
                   tokens_used := 0, error := some e },
                 { st with gemini_errors := st.gemini_errors + 1 },
                 by rw [queryGeminiGo, henv]; rfl, rfl, rfl,
                 fun _ => ⟨attempt, e, le_refl _, by omega, henv, rfl⟩⟩
  | succ rem ih =>
      intro attempt st
      cases henv : env attempt with
      | ok p =>
          obtain ⟨content, tk⟩ := p
          exact ⟨{ success := true, content := content, provider := AIProvider.gemini,
                   tokens_used := 0, error := none },
                 { st with gemini_requests := st.gemini_requests + 1 },
                 by rw [queryGeminiGo, henv], rfl, rfl, fun h => absurd h (by simp)⟩
      | error e =>
          obtain ⟨resp, st', heq, hprov, hfb, hfail⟩ :=
            ih (attempt + 1) { st with gemini_errors := st.gemini_errors + 1 }
          refine ⟨resp, st', ?_, hprov, hfb, ?_⟩
          · rw [queryGeminiGo, henv]
            exact heq
          · intro hs
            obtain ⟨i, d, hi1, hi2, hie, herr⟩ := hfail hs
            exact ⟨i, d, by omega, by omega, hie, herr⟩

/-- The Groq analogue of `queryGeminiGo_char`. -/
theorem queryGroqGo_char (env : ProvEnv) :
    ∀ (rem attempt : Nat) (st : Stats), ∃ resp st',
      queryGroqGo env attempt (rem + 1) st = some (resp, st') ∧
      resp.provider = AIProvider.groq ∧
      st'.fallbacks = st.fallbacks ∧
      (resp.success = false → ∃ i d, attempt ≤ i ∧ i ≤ attempt + rem ∧
        env i = Except.error d ∧ resp.error = some d) := by
  intro rem
  induction rem with
  | zero =>
      intro attempt st
      cases henv : env attempt with
      | ok p =>
          obtain ⟨content, tk⟩ := p
          exact ⟨{ success := true, content := content, provider := AIProvider.groq,
                   tokens_used := tk, error := none },
                 { st with groq_requests := st.groq_requests + 1 },
                 by rw [queryGroqGo, henv], rfl, rfl, fun h => absurd h (by simp)⟩
      | error e =>
          exact ⟨{ success := false, content := "", provider := AIProvider.groq,
                   tokens_used := 0, error := some e },
                 { st with groq_errors := st.groq_errors + 1 },
                 by rw [queryGroqGo, henv]; rfl, rfl, rfl,
                 fun _ => ⟨attempt, e, le_refl _, by omega, henv, rfl⟩⟩
  | succ rem ih =>
      intro attempt st
      cases henv : env attempt with
      | ok p =>
          obtain ⟨content, tk⟩ := p
          exact ⟨{ success := true, content := content, provider := AIProvider.groq,
                   tokens_used := tk, error := none },
                 { st with groq_requests := st.groq_requests + 1 },
                 by rw [queryGroqGo, henv], rfl, rfl, fun h => absurd h (by simp)⟩
      | error e =>
          obtain ⟨resp, st', heq, hprov, hfb, hfail⟩ :=
            ih (attempt + 1) { st with groq_errors := st.groq_errors + 1 }
          refine ⟨resp, st', ?_, hprov, hfb, ?_⟩
          · rw [queryGroqGo, henv]
            exact heq
          · intro hs
            obtain ⟨i, d, hi1, hi2, hie, herr⟩ := hfail hs
            exact ⟨i, d, by omega, by omega, hie, herr⟩

/-- `_query_gemini` with the default budget of three attempts: always a
value; a failure carries a diagnostic from the actual attempt sequence. -/
theorem query_gemini_char (env : ProvEnv) (avail : Bool) (st : Stats) :
    ∃ resp st', query_gemini env avail 3 st = some (resp, st') ∧
      resp.provider = AIProvider.gemini ∧ st'.fallbacks = st.fallbacks ∧
      (resp.success = false → ∃ d, resp.error = some d ∧
        attemptDiagnostic env avail "Gemini not available" d) := by
  cases avail with
  | false =>
      exact ⟨_, _, rfl, rfl, rfl,
        fun _ => ⟨"Gemini not available", rfl, Or.inl ⟨rfl, rfl⟩⟩⟩
  | true =>
      obtain ⟨resp, st', heq, hprov, hfb, hfail⟩ := queryGeminiGo_char env 2 0 st
      refine ⟨resp, st', heq, hprov, hfb, ?_⟩
      intro hs
      obtain ⟨i, d, _, hi2, hie, herr⟩ := hfail hs
      exact ⟨d, herr, Or.inr ⟨i, by omega, hie⟩⟩

/-- `_query_groq` with the default budget of three attempts. -/
theorem query_groq_char (env : ProvEnv) (avail : Bool) (st : Stats) :
    ∃ resp st', query_groq env avail 3 st = some (resp, st') ∧
      resp.provider = AIProvider.groq ∧ st'.fallbacks = st.fallbacks ∧
      (resp.success = false → ∃ d, resp.error = some d ∧
        attemptDiagnostic env avail "Groq not available" d) := by
  cases avail with
  | false =>
      exact ⟨_, _, rfl, rfl, rfl,
        fun _ => ⟨"Groq not available", rfl, Or.inl ⟨rfl, rfl⟩⟩⟩
  | true =>
      obtain ⟨resp, st', heq, hprov, hfb, hfail⟩ := queryGroqGo_char env 2 0 st
      refine ⟨resp, st', heq, hprov, hfb, ?_⟩
      intro hs
      obtain ⟨i, d, _, hi2, hie, herr⟩ := hfail hs
      exact ⟨d, herr, Or.inr ⟨i, by omega, hie⟩⟩

/-- If every attempt in the budget errors, the Gemini loop returns a failure
value, with the fallback counter untouched. -/
theorem queryGeminiGo_allfail (env : ProvEnv) :
    ∀ (rem attempt : Nat) (st : Stats),
      (∀ i, attempt ≤ i → i ≤ attempt + rem → ∃ e, env i = Except.error e) →
      ∃ resp st', queryGeminiGo env attempt (rem + 1) st = some (resp, st') ∧
        resp.success = false ∧ st'.fallbacks = st.fallbacks := by
  intro rem
  induction rem with
  | zero =>
      intro attempt st hall
      obtain ⟨e, he⟩ := hall attempt (le_refl _) (by omega)
      exact ⟨{ success := false, content := "", provider := AIProvider.gemini,
               tokens_used := 0, error := some e },
             { st with gemini_errors := st.gemini_errors + 1 },
             by rw [queryGeminiGo, he]; rfl, rfl, rfl⟩
  | succ rem ih =>
      intro attempt st hall
      obtain ⟨e, he⟩ := hall attempt (le_refl _) (by omega)
      obtain ⟨resp, st', heq, hs, hfb⟩ :=
        ih (attempt + 1) { st with gemini_errors := st.gemini_errors + 1 }
          (fun i h1 h2 => hall i (by omega) (by omega))
      refine ⟨resp, st', ?_, hs, hfb⟩
      rw [queryGeminiGo, he]
      exact heq

/-- The Groq analogue of `queryGeminiGo_allfail`. -/
theorem queryGroqGo_allfail (env : ProvEnv) :
    ∀ (rem attempt : Nat) (st : Stats),
      (∀ i, attempt ≤ i → i ≤ attempt + rem → ∃ e, env i = Except.error e) →
      ∃ resp st', queryGroqGo env attempt (rem + 1) st = some (resp, st') ∧
        resp.success = false ∧ st'.fallbacks = st.fallbacks := by
  intro rem
  induction rem with
  | zero =>
      intro attempt st hall
      obtain ⟨e, he⟩ := hall attempt (le_refl _) (by omega)
      exact ⟨{ success := false, content := "", provider := AIProvider.groq,
               tokens_used := 0, error := some e },
             { st with groq_errors := st.groq_errors + 1 },
             by rw [queryGroqGo, he]; rfl, rfl, rfl⟩
  | succ rem ih =>
      intro attempt st hall
      obtain ⟨e, he⟩ := hall attempt (le_refl _) (by omega)
      obtain ⟨resp, st', heq, hs, hfb⟩ :=
        ih (attempt + 1) { st with groq_errors := st.groq_errors + 1 }
          (fun i h1 h2 => hall i (by omega) (by omega))
      refine ⟨resp, st', ?_, hs, hfb⟩
      rw [queryGroqGo, he]
      exact heq

/-- If the first successful attempt falls inside the budget, the Gemini loop
returns that success, with the fallback counter untouched. -/
theorem queryGeminiGo_firstok (env : ProvEnv) :
    ∀ (rem attempt : Nat) (st : Stats) (j : Nat), attempt ≤ j → j ≤ attempt + rem →
      (∀ k, attempt ≤ k → k < j → ∃ e, env k = Except.error e) →
      (∃ c tk, env j = Except.ok (c, tk)) →
      ∃ resp st', queryGeminiGo env attempt (rem + 1) st = some (resp, st') ∧
        resp.success = true ∧ resp.provider = AIProvider.gemini ∧
        st'.fallbacks = st.fallbacks := by
  intro rem
  induction rem with
  | zero =>
      intro attempt st j h1 h2 _ hok
      obtain ⟨c, tk, he⟩ := hok
      have hj : j = attempt := by omega
      subst hj
      exact ⟨{ success := true, content := c, provider := AIProvider.gemini,
               tokens_used := 0, error := none },
             { st with gemini_requests := st.gemini_requests + 1 },
             by rw [queryGeminiGo, he], rfl, rfl, rfl⟩
  | succ rem ih =>
      intro attempt st j h1 h2 hkerr hok
      by_cases hja : j = attempt
      · subst hja
        obtain ⟨c, tk, he⟩ := hok
        exact ⟨{ success := true, content := c, provider := AIProvider.gemini,
                 tokens_used := 0, error := none },
               { st with gemini_requests := st.gemini_requests + 1 },
               by rw [queryGeminiGo, he], rfl, rfl, rfl⟩
      · obtain ⟨e, he⟩ := hkerr attempt (le_refl _) (by omega)
        obtain ⟨resp, st', heq, hs, hprov, hfb⟩ :=
          ih (attempt + 1) { st with gemini_errors := st.gemini_errors + 1 } j
            (by omega) (by omega) (fun k hk1 hk2 => hkerr k (by omega) hk2) hok
        refine ⟨resp, st', ?_, hs, hprov, hfb⟩
        rw [queryGeminiGo, he]
        exact heq

/-- The Groq analogue of `queryGeminiGo_firstok`. -/
theorem queryGroqGo_firstok (env : ProvEnv) :
    ∀ (rem attempt : Nat) (st : Stats) (j : Nat), attempt ≤ j → j ≤ attempt + rem →
      (∀ k, attempt ≤ k → k < j → ∃ e, env k = Except.error e) →
      (∃ c tk, env j = Except.ok (c, tk)) →
      ∃ resp st', queryGroqGo env attempt (rem + 1) st = some (resp, st') ∧
        resp.success = true ∧ resp.provider = AIProvider.groq ∧
        st'.fallbacks = st.fallbacks := by
  intro rem
  induction rem with
  | zero =>
      intro attempt st j h1 h2 _ hok
      obtain ⟨c, tk, he⟩ := hok
      have hj : j = attempt := by omega
      subst hj
      exact ⟨{ success := true, content := c, provider := AIProvider.groq,
               tokens_used := tk, error := none },
             { st with groq_requests := st.groq_requests + 1 },
             by rw [queryGroqGo, he], rfl, rfl, rfl⟩
  | succ rem ih =>
      intro attempt st j h1 h2 hkerr hok
      by_cases hja : j = attempt
      · subst hja
        obtain ⟨c, tk, he⟩ := hok
        exact ⟨{ success := true, content := c, provider := AIProvider.groq,
                 tokens_used := tk, error := none },
               { st with groq_requests := st.groq_requests + 1 },
               by rw [queryGroqGo, he], rfl, rfl, rfl⟩
      · obtain ⟨e, he⟩ := hkerr attempt (le_refl _) (by omega)
        obtain ⟨resp, st', heq, hs, hprov, hfb⟩ :=
          ih (attempt + 1) { st with groq_errors := st.groq_errors + 1 } j
            (by omega) (by omega) (fun k hk1 hk2 => hkerr k (by omega) hk2) hok
        refine ⟨resp, st', ?_, hs, hprov, hfb⟩
        rw [queryGroqGo, he]
        exact heq

/-- C2.  `query` never raises: for every oracle, availability state and
preference it returns a response value; and when that value reports failure,
its error field is the fixed concatenation of one diagnostic from the
primary's failed attempt sequence and one from the fallback's. -/
theorem claim_C2 (gemEnv groqEnv : ProvEnv) (gemAvail groqAvail : Bool)
    (prefer : Option AIProvider) (st : Stats) :
    (query gemEnv groqEnv gemAvail groqAvail prefer st).isSome = true ∧
    (∀ resp st', query gemEnv groqEnv gemAvail groqAvail prefer st = some (resp, st') →
      resp.success = false →
      ∃ d1 d2,
        resp.error = some ("All providers failed. Gemini: " ++ d1 ++ ", Groq: " ++ d2) ∧
        (if prefer = some AIProvider.groq
         then attemptDiagnostic groqEnv groqAvail "Groq not available" d1 ∧
              attemptDiagnostic gemEnv gemAvail "Gemini not available" d2
         else attemptDiagnostic gemEnv gemAvail "Gemini not available" d1 ∧
              attemptDiagnostic groqEnv groqAvail "Groq not available" d2)) := by
  by_cases hp : prefer = some AIProvider.groq
  · obtain ⟨respP, st1, heqP, hprovP, hfbP, hfailP⟩ := query_groq_char groqEnv groqAvail st
    by_cases hsucc : respP.success = true
    · have hq : query gemEnv groqEnv gemAvail groqAvail prefer st = some (respP, st1) := by
        rw [query, if_pos hp, heqP]
        simp [hsucc]
      refine ⟨by rw [hq]; rfl, ?_⟩
      intro resp st' heq hfal
      rw [hq] at heq
      injection heq with h2
      injection h2 with ha hb
      rw [ha] at hsucc
      exact absurd hfal (by simp [hsucc])
    · have hsucc' : respP.success = false := by
        cases h2 : respP.success
        · rfl
        · exact absurd h2 hsucc
      obtain ⟨respF, st3, heqF, hprovF, hfbF, hfailF⟩ :=
        query_gemini_char gemEnv gemAvail { st1 with fallbacks := st1.fallbacks + 1 }
      by_cases hsF : respF.success = true
      · have hq : query gemEnv groqEnv gemAvail groqAvail prefer st = some (respF, st3) := by
          rw [query, if_pos hp, heqP]
          simp only [hsucc', Bool.false_eq_true, if_false]
          rw [if_pos hp, heqF]
          simp [hsF]
        refine ⟨by rw [hq]; rfl, ?_⟩
        intro resp st' heq hfal
        rw [hq] at heq
        injection heq with h2
        injection h2 with ha hb
        rw [ha] at hsF
        exact absurd hfal (by simp [hsF])
      · have hsF' : respF.success = false := by
          cases h2 : respF.success
          · rfl
          · exact absurd h2 hsF
        have hq : query gemEnv groqEnv gemAvail groqAvail prefer st =
            some ({ success := false, content := "", provider := AIProvider.gemini,
                    tokens_used := 0,
                    error := some ("All providers failed. Gemini: " ++ optStr respP.error
                      ++ ", Groq: " ++ optStr respF.error) }, st3) := by
          rw [query, if_pos hp, heqP]
          simp only [hsucc', Bool.false_eq_true, if_false]
          rw [if_pos hp, heqF]
          simp [hsF']
        refine ⟨by rw [hq]; rfl, ?_⟩
        intro resp st' heq hfal
        rw [hq] at heq
        injection heq with h2
        injection h2 with ha hb
        obtain ⟨d1, herr1, hdiag1⟩ := hfailP hsucc'
        obtain ⟨d2, herr2, hdiag2⟩ := hfailF hsF'
        refine ⟨d1, d2, ?_, ?_⟩
        · rw [← ha, herr1, herr2]
          rfl
        · rw [if_pos hp]
          exact ⟨hdiag1, hdiag2⟩
  · obtain ⟨respP, st1, heqP, hprovP, hfbP, hfailP⟩ := query_gemini_char gemEnv gemAvail st
    by_cases hsucc : respP.success = true
    · have hq : query gemEnv groqEnv gemAvail groqAvail prefer st = some (respP, st1) := by
        rw [query, if_neg hp, heqP]
        simp [hsucc]
      refine ⟨by rw [hq]; rfl, ?_⟩
      intro resp st' heq hfal
      rw [hq] at heq
      injection heq with h2
      injection h2 with ha hb
      rw [ha] at hsucc
      exact absurd hfal (by simp [hsucc])
    · have hsucc' : respP.success = false := by
        cases h2 : respP.success
        · rfl
        · exact absurd h2 hsucc
      obtain ⟨respF, st3, heqF, hprovF, hfbF, hfailF⟩ :=
        query_groq_char groqEnv groqAvail { st1 with fallbacks := st1.fallbacks + 1 }
      by_cases hsF : respF.success = true
      · have hq : query gemEnv groqEnv gemAvail groqAvail prefer st = some (respF, st3) := by
          rw [query, if_neg hp, heqP]
          simp only [hsucc', Bool.false_eq_true, if_false]
          rw [if_neg hp, heqF]
          simp [hsF]
        refine ⟨by rw [hq]; rfl, ?_⟩
        intro resp st' heq hfal
        rw [hq] at heq
        injection heq with h2
        injection h2 with ha hb
        rw [ha] at hsF
        exact absurd hfal (by simp [hsF])
      · have hsF' : respF.success = false := by
          cases h2 : respF.success
          · rfl
          · exact absurd h2 hsF
        have hq : query gemEnv groqEnv gemAvail groqAvail prefer st =
            some ({ success := false, content := "", provider := AIProvider.gemini,
                    tokens_used := 0,
                    error := some ("All providers failed. Gemini: " ++ optStr respP.error
                      ++ ", Groq: " ++ optStr respF.error) }, st3) := by
          rw [query, if_neg hp, heqP]
          simp only [hsucc', Bool.false_eq_true, if_false]
          rw [if_neg hp, heqF]
          simp [hsF']
        refine ⟨by rw [hq]; rfl, ?_⟩
        intro resp st' heq hfal
        rw [hq] at heq
        injection heq with h2
        injection h2 with ha hb
        obtain ⟨d1, herr1, hdiag1⟩ := hfailP hsucc'
        obtain ⟨d2, herr2, hdiag2⟩ := hfailF hsF'
        refine ⟨d1, d2, ?_, ?_⟩
        · rw [← ha, herr1, herr2]
          rfl
        · rw [if_neg hp]
          exact ⟨hdiag1, hdiag2⟩

/-- C2 evaluated at oracles for which both providers fail every attempt. -/
theorem claim_C2_witness :
    (query (fun _ => Except.error "gemini down") (fun _ => Except.error "groq down")
      true true none statsInit).isSome = true :=
  (claim_C2 (fun _ => Except.error "gemini down") (fun _ => Except.error "groq down")
    true true none statsInit).1

/-- C5.  When the primary provider errors on every attempt of its budget and
the secondary provider's attempt sequence reaches a success, the final
response is that success: its provider field is the secondary's id, and the
fallback counter grows by exactly one for the request. -/
theorem claim_C5 (gemEnv groqEnv : ProvEnv) (prefer : Option AIProvider) (st : Stats)
    (hprim : ∀ i, i ≤ 2 → ∃ e,
      (if prefer = some AIProvider.groq then groqEnv else gemEnv) i = Except.error e)
    (hsec : ∃ j, j ≤ 2 ∧ (∀ k, k < j → ∃ e,
        (if prefer = some AIProvider.groq then gemEnv else groqEnv) k = Except.error e) ∧
      ∃ c tk, (if prefer = some AIProvider.groq then gemEnv else groqEnv) j
        = Except.ok (c, tk)) :
    ∃ resp st', query gemEnv groqEnv true true prefer st = some (resp, st') ∧
      resp.success = true ∧
      resp.provider = (if prefer = some AIProvider.groq then AIProvider.gemini
                       else AIProvider.groq) ∧
      st'.fallbacks = st.fallbacks + 1 := by
  obtain ⟨j, hj2, hkerr, c, tk, hok⟩ := hsec
  by_cases hp : prefer = some AIProvider.groq
  · rw [if_pos hp] at hok
    simp only [if_pos hp] at hprim hkerr
    obtain ⟨respP, st1, heqP, hsP, hfbP⟩ := queryGroqGo_allfail groqEnv 2 0 st
      (fun i h1 h2 => hprim i (by omega))
    obtain ⟨respF, st3, heqF, hsF, hprovF, hfbF⟩ := queryGeminiGo_firstok gemEnv 2 0
      { st1 with fallbacks := st1.fallbacks + 1 } j (by omega) (by omega)
      (fun k _ hk => hkerr k hk) ⟨c, tk, hok⟩
    have heqP' : query_groq groqEnv true 3 st = some (respP, st1) := heqP
    have heqF' : query_gemini gemEnv true 3 { st1 with fallbacks := st1.fallbacks + 1 }
        = some (respF, st3) := heqF
    refine ⟨respF, st3, ?_, hsF, by rw [if_pos hp]; exact hprovF, ?_⟩
    · rw [query, if_pos hp, heqP']
      simp only [hsP, Bool.false_eq_true, if_false]
      rw [if_pos hp, heqF']
      simp [hsF]
    · rw [hfbF]
      show st1.fallbacks + 1 = st.fallbacks + 1
      rw [hfbP]
  · rw [if_neg hp] at hok
    simp only [if_neg hp] at hprim hkerr
    obtain ⟨respP, st1, heqP, hsP, hfbP⟩ := queryGeminiGo_allfail gemEnv 2 0 st
      (fun i h1 h2 => hprim i (by omega))
    obtain ⟨respF, st3, heqF, hsF, hprovF, hfbF⟩ := queryGroqGo_firstok groqEnv 2 0
      { st1 with fallbacks := st1.fallbacks + 1 } j (by omega) (by omega)
      (fun k _ hk => hkerr k hk) ⟨c, tk, hok⟩
    have heqP' : query_gemini gemEnv true 3 st = some (respP, st1) := heqP
    have heqF' : query_groq groqEnv true 3 { st1 with fallbacks := st1.fallbacks + 1 }
        = some (respF, st3) := heqF
    refine ⟨respF, st3, ?_, hsF, by rw [if_neg hp]; exact hprovF, ?_⟩
    · rw [query, if_neg hp, heqP']
      simp only [hsP, Bool.false_eq_true, if_false]
      rw [if_neg hp, heqF']
      simp [hsF]
    · rw [hfbF]
      show st1.fallbacks + 1 = st.fallbacks + 1
      rw [hfbP]

/-- C5 at concrete oracles: the default primary (Gemini) always errors, Groq
succeeds immediately. -/
theorem claim_C5_witness :
    ∃ resp st',
      query (fun _ => Except.error "boom") (fun _ => Except.ok ("hello", 5))
        true true none statsInit = some (resp, st') ∧
      resp.success = true ∧
      resp.provider = (if (none : Option AIProvider) = some AIProvider.groq
                       then AIProvider.gemini else AIProvider.groq) ∧
      st'.fallbacks = statsInit.fallbacks + 1 :=
  claim_C5 (fun _ => Except.error "boom") (fun _ => Except.ok ("hello", 5)) none statsInit
    (fun i _ => ⟨"boom", by simp⟩)
    ⟨0, by omega, fun k hk => absurd hk (Nat.not_lt_zero k), ⟨"hello", 5, by simp⟩⟩

/-- C1 (amended).  Extraction of a non-empty input tries exactly five parse
attempts in order — whole stripped text, first `json`-tagged fenced block,
first fenced block of any tag, the greedy span from the first `\x7b` to the
last `\x7d`, the greedy span from the first `[` to the last `]` — the first
success determines the result with no later attempt made, and the extractor
raises an error carrying the first 200 characters of the stripped text if
and only if all five fail; an empty input raises the dedicated
empty-response error before any attempt runs. -/
theorem claim_C1 (s : String) :
    extract_json_from_response s =
      (if s = "" then Except.error "Empty response from AI"
       else
         match firstSome [method1, method2, method3, method4, method5] (pyStrip s) with
         | some v => Except.ok v
         | none =>
             Except.error ("Could not extract valid JSON from response. First 200 chars: "
               ++ (pyStrip s).take 200)) := by
  by_cases hs : s = ""
  · simp [extract_json_from_response, hs]
  · simp only [extract_json_from_response, if_neg hs, firstSome, method1, method2, method3,
      method4, method5]
    cases h1 : json_loads (pyStrip s) with
    | some v => rfl
    | none =>
        cases h2 : (fencedContent ("```json".toList) (pyStrip s).toList).bind
            (fun c => json_loads (pyStrip (String.mk c))) with
        | some v => rfl
        | none =>
            cases h3 : (fencedContent ("```".toList) (pyStrip s).toList).bind
                (fun c => json_loads (pyStrip (String.mk c))) with
            | some v => rfl
            | none =>
                cases h4 : (greedySpan (pyStrip s).toList '\x7b' '\x7d').bind
                    (fun c => json_loads (String.mk c)) with
                | some v => rfl
                | none =>
                    cases h5 : (greedySpan (pyStrip s).toList '[' ']').bind
                        (fun c => json_loads (String.mk c)) with
                    | some v => rfl
                    | none => rfl

set_option maxRecDepth 100000 in
/-- C1, claim as stated, refuted: on the input `\x7b"a": 1\x7d \x7d` the
extractor raises (its brace method parses the greedy first-to-last span,
which is not valid JSON), while the claim's method 4 — the first balanced
brace span — parses successfully; so method 4 is not the first balanced
span. -/
theorem claim_C1_counterexample :
    extract_json_from_response "\x7b\"a\": 1\x7d \x7d" =
      Except.error
        ("Could not extract valid JSON from response. First 200 chars: \x7b\"a\": 1\x7d \x7d") ∧
    specBalancedBraceMethod "\x7b\"a\": 1\x7d \x7d"
      = some (JVal.obj [("a", JVal.num "1")]) :=
  ⟨rfl, rfl⟩

end ToingAI
